import Mathlib

/-
Verification development for the ottoMail inquiry-processing pipeline.

The pipeline (agent/nodes.py, agent/graph.py) threads a mutable dict-like
state through a sequence of stages: classification, extraction, planning,
cost calculation, proposal generation, storage, draft creation and
notification.  Each AI-backed stage calls a completion service, parses its
output as JSON, and falls back to a deterministic computation on any
failure.

The shallow embedding below models:
  * Python strings and the string operations the pipeline uses
    (strip, split, capitalize, lower, substring containment);
  * JSON values and the `json.loads` parser together with the
    `_clean_json` code-fence stripper;
  * the pipeline state as an association list from string keys to JSON
    values, mirroring the Python dict with `dict.update` semantics;
  * the completion service as a function from prompt strings to either a
    returned completion or a raised error;
  * each stage function from agent/nodes.py, including the exact accesses
    that happen outside the try/except blocks (which can raise `KeyError`
    and friends to the caller) — stages therefore return
    `Except String Dict`;
  * the Gemini provider's error-swallowing `invoke` wrapper
    (integrations/gemini_service.py);
  * the router of agent/graph.py as `runPipeline`.

Unicode-sensitive Python behaviours (`str.lower`, `str.capitalize`,
`str.strip`) are modelled on ASCII, which covers every string the
pipeline manipulates.  Python exception message texts that no claim
depends on (JSONDecodeError, TypeError) are modelled as fixed non-empty
tokens.
-/

/-! ### Character and string utilities (Python semantics) -/

/-- The characters Python's `str.strip()` and `str.split()` treat as
whitespace (ASCII fragment). -/
def isPyWs (c : Char) : Bool :=
  c = ' ' || c = '\t' || c = '\n' || c = '\x0d' || c = '\x0b' || c = '\x0c'

/-- Drop leading Python whitespace from a character list. -/
def dropWsL : List Char → List Char
  | [] => []
  | c :: rest => if isPyWs c then dropWsL rest else c :: rest

/-- Python `str.strip()` on a character list. -/
def stripL (l : List Char) : List Char :=
  ((dropWsL l).reverse |> dropWsL).reverse

/-- Python `str.strip()`. -/
def pyStrip (s : String) : String := String.mk (stripL s.data)

/-- Python `str.split()` (split on whitespace runs, dropping empties),
on a character list, accumulating the current word. -/
def splitWsL : List Char → List Char → List (List Char)
  | [], acc => if acc = [] then [] else [acc.reverse]
  | c :: rest, acc =>
    if isPyWs c then
      if acc = [] then splitWsL rest [] else acc.reverse :: splitWsL rest []
    else splitWsL rest (c :: acc)

/-- Python `str.split()`. -/
def pySplitWs (s : String) : List String :=
  (splitWsL s.data []).map String.mk

/-- Python `str.capitalize()`: first character uppercased, the rest
lowercased (ASCII model). -/
def pyCapitalize (s : String) : String :=
  match s.data with
  | [] => ""
  | c :: rest => String.mk (c.toUpper :: rest.map Char.toLower)

/-- Python `str.lower()` (ASCII model). -/
def pyLower (s : String) : String := String.mk (s.data.map Char.toLower)

/-- Python `str.upper()` (ASCII model). -/
def pyUpper (s : String) : String := String.mk (s.data.map Char.toUpper)

/-- The characters before the first occurrence of `c`, i.e. Python
`s.split(c)[0]` for a one-character separator. -/
def takeBeforeL (c : Char) : List Char → List Char
  | [] => []
  | d :: rest => if d = c then [] else d :: takeBeforeL c rest

/-- Python `s.split(c)[0]`. -/
def takeBefore (c : Char) (s : String) : String := String.mk (takeBeforeL c s.data)

/-- Whether `c` occurs in `s` (Python `c in s` for a single character). -/
def charIn (c : Char) (s : String) : Bool := s.data.contains c

/-- Join a list of strings with a separator (Python `sep.join(xs)`). -/
def joinSep (sep : String) : List String → String
  | [] => ""
  | [x] => x
  | x :: rest => x ++ sep ++ joinSep sep rest

/-- Boolean prefix test over character lists. -/
def isPrefixL : List Char → List Char → Bool
  | [], _ => true
  | _ :: _, [] => false
  | a :: as, b :: bs => a = b && isPrefixL as bs

/-- Boolean substring test over character lists (`needle` occurs in `hay`). -/
def containsL (hay needle : List Char) : Bool :=
  match hay with
  | [] => isPrefixL needle []
  | _ :: t => isPrefixL needle hay || containsL t needle

/-- Python `needle in hay` for strings. -/
def strContains (hay needle : String) : Bool := containsL hay.data needle.data

/-- Python `hay.startswith(needle)`. -/
def strStarts (hay needle : String) : Bool := isPrefixL needle.data hay.data

/-- Python `hay.endswith(needle)`. -/
def strEnds (hay needle : String) : Bool := isPrefixL needle.data.reverse hay.data.reverse

/-- Drop the first `n` characters (Python `s[n:]`). -/
def strDrop (s : String) (n : Nat) : String := String.mk (s.data.drop n)

/-- Drop the last `n` characters (Python `s[:-n]`). -/
def strDropRight (s : String) (n : Nat) : String :=
  String.mk (s.data.take (s.data.length - n))

/-- Digits of a natural number, most significant first. -/
def natDigitsAux : Nat → Nat → List Char
  | 0, _ => []
  | _ + 1, n =>
    if n < 10 then [Char.ofNat (48 + n)]
    else natDigitsAux n (n / 10) ++ [Char.ofNat (48 + n % 10)]

/-- Decimal representation of a natural number. -/
def natRepr (n : Nat) : String := String.mk (natDigitsAux (n + 1) n)

/-- Decimal representation of an integer. -/
def intRepr (n : Int) : String :=
  if n < 0 then "-" ++ natRepr n.natAbs else natRepr n.natAbs

/-- Group a reversed digit list in threes, inserting commas (helper for
Python's `format(x, ",")`). -/
def commaGroupRev : List Char → List Char
  | a :: b :: c :: d :: rest => a :: b :: c :: ',' :: commaGroupRev (d :: rest)
  | l => l

/-- Python `f"{n:,}"` for an integer: decimal digits in groups of three
separated by commas. -/
def intComma (n : Int) : String :=
  let digits := (natRepr n.natAbs).data
  let grouped := (commaGroupRev digits.reverse).reverse
  if n < 0 then String.mk ('-' :: grouped) else String.mk grouped

/-! ### JSON values and the parser

`Json` models the Python values produced by `json.loads`: `None`, booleans,
numbers (modelled as rationals — every numeric literal the pipeline
manipulates is exactly representable), strings, lists and dicts.  Object
key-value lists are deduplicated at parse time with last-key-wins
semantics, matching the Python dict produced by `json.loads`. -/

inductive Json where
  | null : Json
  | bool : Bool → Json
  | num : ℚ → Json
  | str : String → Json
  | arr : List Json → Json
  | obj : List (String × Json) → Json

/-- First-match lookup in an association list with unique keys. -/
def assocGet : List (String × Json) → String → Option Json
  | [], _ => none
  | (k', v) :: rest, k => if k = k' then some v else assocGet rest k

/-- Replace the value at a key, or append the pair (Python dict item
assignment; preserves insertion order). -/
def assocSet : List (String × Json) → String → Json → List (String × Json)
  | [], k, v => [(k, v)]
  | (k', v') :: rest, k, v =>
    if k = k' then (k', v) :: rest else (k', v') :: assocSet rest k v

/-- Python truthiness of a JSON value (`bool(v)`). -/
def truthy : Json → Bool
  | .null => false
  | .bool b => b
  | .num q => q ≠ 0
  | .str s => s ≠ ""
  | .arr l => !l.isEmpty
  | .obj l => !l.isEmpty

/-! JSON whitespace (as accepted by Python's `json.loads`). -/

def isJsonWs (c : Char) : Bool := c = ' ' || c = '\t' || c = '\n' || c = '\x0d'

def skipJsonWs : List Char → List Char
  | [] => []
  | c :: rest => if isJsonWs c then skipJsonWs rest else c :: rest

/-- Parse the body of a JSON string literal after the opening quote,
handling the escape sequences of the JSON grammar. -/
def parseJsonString : List Char → Option (String × List Char) :=
  go []
where
  hexVal (c : Char) : Option Nat :=
    if '0' ≤ c ∧ c ≤ '9' then some (c.toNat - 48)
    else if 'a' ≤ c ∧ c ≤ 'f' then some (c.toNat - 87)
    else if 'A' ≤ c ∧ c ≤ 'F' then some (c.toNat - 55)
    else none
  go (acc : List Char) : List Char → Option (String × List Char)
    | [] => none
    | '"' :: rest => some (String.mk acc.reverse, rest)
    | '\\' :: e :: rest =>
      match e with
      | '"' => go ('"' :: acc) rest
      | '\\' => go ('\\' :: acc) rest
      | '/' => go ('/' :: acc) rest
      | 'b' => go ('\x08' :: acc) rest
      | 'f' => go ('\x0c' :: acc) rest
      | 'n' => go ('\n' :: acc) rest
      | 'r' => go ('\x0d' :: acc) rest
      | 't' => go ('\t' :: acc) rest
      | 'u' =>
        match rest with
        | a :: b :: c :: d :: rest' =>
          match hexVal a, hexVal b, hexVal c, hexVal d with
          | some ha, some hb, some hc, some hd =>
            go (Char.ofNat (((ha * 16 + hb) * 16 + hc) * 16 + hd) :: acc) rest'
          | _, _, _, _ => none
        | _ => none
      | _ => none
    | c :: rest => go (c :: acc) rest

/-- Parse an unsigned decimal digit run, returning its value and length. -/
def parseDigits : List Char → Nat → Nat → Option (Nat × Nat × List Char)
  | c :: rest, acc, len =>
    if c.isDigit then parseDigits rest (acc * 10 + (c.toNat - 48)) (len + 1)
    else if len = 0 then none else some (acc, len, c :: rest)
  | [], acc, len => if len = 0 then none else some (acc, len, [])

/-- Parse the fractional/exponent tail of a JSON number, given the integer
part already read; returns an unnormalized numerator/denominator pair.
(The value is assembled with `mkRat` rather than rational division so
that concrete runs reduce definitionally.) -/
def parseNumTail (ip : Nat) (l : List Char) : Option ((Int × Nat) × List Char) :=
  let frac : Option (Nat × Nat × List Char) :=
    match l with
    | '.' :: rest =>
      match parseDigits rest 0 0 with
      | some (fp, flen, rest') => some (ip * 10 ^ flen + fp, flen, rest')
      | none => none
    | _ => some (ip, 0, l)
  match frac with
  | none => none
  | some (mant, scale, l) =>
    match l with
    | 'e' :: rest | 'E' :: rest =>
      let (eneg, rest) :=
        match rest with
        | '-' :: r => (true, r)
        | '+' :: r => (false, r)
        | _ => (false, rest)
      match parseDigits rest 0 0 with
      | some (ev, _, rest') =>
        some (if eneg then ((mant : Int), 10 ^ (scale + ev))
          else ((mant * 10 ^ ev : Nat), 10 ^ scale), rest')
      | none => none
    | _ => some (((mant : Int), 10 ^ scale), l)

/-- Parse a JSON number into a rational. -/
def parseJsonNum (l : List Char) : Option (ℚ × List Char) :=
  match l with
  | '-' :: rest =>
    match parseDigits rest 0 0 with
    | some (ip, _, rest') =>
      match parseNumTail ip rest' with
      | some ((n, d), rest'') => some (mkRat (-n) d, rest'')
      | none => none
    | none => none
  | _ =>
    match parseDigits l 0 0 with
    | some (ip, _, rest') =>
      match parseNumTail ip rest' with
      | some ((n, d), rest'') => some (mkRat n d, rest'')
      | none => none
    | none => none

/-- Collapse duplicate object keys with last-key-wins values, as Python's
`json.loads` does when building a dict. -/
def dedupPairs (ps : List (String × Json)) : List (String × Json) :=
  ps.foldl (fun d kv => assocSet d kv.1 kv.2) []

mutual
/-- Fuel-indexed recursive-descent parser for a JSON value, modelling
`json.loads`.  Returns the value and the unconsumed remainder. -/
def parseVal : Nat → List Char → Option (Json × List Char)
  | 0, _ => none
  | fuel + 1, l =>
    match skipJsonWs l with
    | 'n' :: 'u' :: 'l' :: 'l' :: rest => some (.null, rest)
    | 't' :: 'r' :: 'u' :: 'e' :: rest => some (.bool true, rest)
    | 'f' :: 'a' :: 'l' :: 's' :: 'e' :: rest => some (.bool false, rest)
    | '"' :: rest =>
      match parseJsonString rest with
      | some (s, rest') => some (.str s, rest')
      | none => none
    | '[' :: rest =>
      (match skipJsonWs rest with
       | ']' :: rest' => some (.arr [], rest')
       | l' =>
         match parseElems fuel l' with
         | some (xs, rest') => some (.arr xs, rest')
         | none => none)
    | '{' :: rest =>
      (match skipJsonWs rest with
       | '}' :: rest' => some (.obj [], rest')
       | l' =>
         match parseMembers fuel l' with
         | some (ps, rest') => some (.obj (dedupPairs ps), rest')
         | none => none)
    | l' => (parseJsonNum l').map (fun p => (.num p.1, p.2))
termination_by structural fuel _ => fuel

/-- Parse the comma-separated elements of a non-empty JSON array, up to
and including the closing bracket. -/
def parseElems : Nat → List Char → Option (List Json × List Char)
  | 0, _ => none
  | fuel + 1, l =>
    match parseVal fuel l with
    | none => none
    | some (v, rest) =>
      match skipJsonWs rest with
      | ',' :: rest' =>
        (match parseElems fuel rest' with
         | some (xs, r) => some (v :: xs, r)
         | none => none)
      | ']' :: rest' => some ([v], rest')
      | _ => none
termination_by structural fuel _ => fuel

/-- Parse the members of a non-empty JSON object, up to and including
the closing brace. -/
def parseMembers : Nat → List Char → Option (List (String × Json) × List Char)
  | 0, _ => none
  | fuel + 1, l =>
    match skipJsonWs l with
    | '"' :: rest =>
      (match parseJsonString rest with
       | none => none
       | some (k, rest') =>
         match skipJsonWs rest' with
         | ':' :: rest2 =>
           (match parseVal fuel rest2 with
            | none => none
            | some (v, rest3) =>
              match skipJsonWs rest3 with
              | ',' :: rest4 =>
                (match parseMembers fuel rest4 with
                 | some (ps, r) => some ((k, v) :: ps, r)
                 | none => none)
              | '}' :: rest4 => some ([(k, v)], rest4)
              | _ => none)
         | _ => none)
    | _ => none
termination_by structural fuel _ => fuel
end

/-- `json.loads`: parse a complete JSON document; fails if anything but
whitespace follows the value. -/
def json_loads (s : String) : Option Json :=
  match parseVal (2 * s.data.length + 8) s.data with
  | some (j, rest) => if skipJsonWs rest = [] then some j else none
  | none => none

/-- `_clean_json` from agent/nodes.py: strip whitespace, remove a leading
```` ```json ```` or ```` ``` ```` fence and a trailing ```` ``` ```` fence,
and strip again. -/
def clean_json (response : String) : String :=
  let r := pyStrip response
  let r := if strStarts r "```json" then strDrop r 7 else r
  let r := if strStarts r "```" then strDrop r 3 else r
  let r := if strEnds r "```" then strDropRight r 3 else r
  pyStrip r

/-! ### The pipeline state: a Python dict from string keys to JSON values -/

/-- The pipeline state, modelling the Python dict threaded through the
stages: an insertion-ordered association list with unique keys. -/
def Dict := List (String × Json)

/-- `state[k]` as an optional lookup (first match). -/
def Dict.get? (d : Dict) (k : String) : Option Json := assocGet d k

/-- `state[k] = v` / one key of `dict.update`: replace in place or append. -/
def Dict.insert (d : Dict) (k : String) (v : Json) : Dict := assocSet d k v

/-- `state.update({...})`: fold the key-value pairs left to right, so a
later duplicate key wins (Python dict-literal semantics). -/
def Dict.updateL (d : Dict) (kvs : List (String × Json)) : Dict :=
  kvs.foldl (fun d kv => Dict.insert d kv.1 kv.2) d

/-- The value a list of update pairs assigns to `k`, if any: the last
binding wins. -/
def revLookup : List (String × Json) → String → Option Json
  | [], _ => none
  | p :: rest, k =>
    match revLookup rest k with
    | some v => some v
    | none => if k = p.1 then some p.2 else none

/-- `state.get(k, default)`. -/
def Dict.getD (d : Dict) (k : String) (v : Json) : Json := (d.get? k).getD v

/-! ### Rendering values into f-strings

`pyStr` models Python's `str()` as used when a state value is interpolated
into a prompt f-string.  Strings interpolate verbatim and None, booleans
and numbers render faithfully; list and dict values — which reach a
prompt only through adversarial completions, and whose rendering no claim
inspects — are abstracted as fixed placeholder tokens rather than
Python's recursive `repr` forms. -/

def pyStr : Json → String
  | .null => "None"
  | .bool true => "True"
  | .bool false => "False"
  | .num q => if q.den = 1 then intRepr q.num else intRepr q.num ++ "/" ++ natRepr q.den
  | .str s => s
  | .arr _ => "[...]"
  | .obj _ => "\x7b...\x7d"

/-! ### The Completion Service interface -/

/-- Outcome of one `await llm.invoke(prompt)` call: a returned completion
string, or a raised exception carrying its `str(e)` message. -/
inductive LLMResult where
  | ok : String → LLMResult
  | err : String → LLMResult

/-- The completion service consumed by the stages: prompt in, outcome out. -/
def LLM := String → LLMResult

/-- `str(e)` of a `json.JSONDecodeError`, abstracted as a fixed non-empty
token (no claim depends on its exact text). -/
def jsonDecodeMsg : String := "Expecting value"

/-- `str(e)` of the `TypeError` raised by `{**data}` on a non-dict value,
abstracted as a fixed non-empty token. -/
def notMappingMsg : String := "object is not a mapping"

/-- `str(e)` of the `TypeError` raised by subscripting a non-dict value,
abstracted as a fixed non-empty token. -/
def subscriptMsg : String := "object is not subscriptable"

/-- `str(KeyError(k))`, which Python renders as the repr of the key. -/
def keyErrStr (k : String) : String := "\x27" ++ k ++ "\x27"

/-! ### Prompt templates (agent/nodes.py, transcribed verbatim) -/

/-- The classification prompt of `classify_email` (nodes.py lines 24-48). -/
def classify_prompt (subject sender body : String) : String :=
  "Classify if this email is a genuine business inquiry needing a proposal.\n\nRULES - Email IS VALID if:\n- Person asks about building/developing something (app, website, tool, system, etc.)\n- Person asks for consulting, training, or professional services\n- Person describes a business problem needing a solution\n- Message is reasonably detailed (not one-word spam)\n\nRules - Email IS NOT VALID if:\n- It\x27s spam, promotional, or recruiting\n- It\x27s a job application\n- It\x27s generic \"I\x27ll pay you big money\" with no details\n- It\x27s obviously auto-generated marketing\n\nEmail to analyze:\nSubject: " ++ subject ++ "\nFrom: " ++ sender ++ "\nBody: " ++ body ++ "\n\nReturn ONLY valid JSON:\n\x7b\n    \"is_valid\": true or false,\n    \"confidence\": 0.0 to 1.0,\n    \"reason\": \"one sentence explanation\"\n\x7d"

/-- The extraction prompt of `extract_requirements` (nodes.py lines 80-106). -/
def extract_prompt (sender subject body : String) : String :=
  "Extract structured information from this inquiry email.\n\nEmail:\nFrom: " ++ sender ++ "\nSubject: " ++ subject ++ "\nBody: " ++ body ++ "\n\nEXTRACTION GUIDELINES:\n- client_name: Look for signature, name mentions, or parse from email address\n- company: Business name if mentioned, otherwise null or infer from domain\n- project_type: What they want built (be SPECIFIC, e.g., \"Custom CRM for Real Estate\", not just \"CRM\")\n- requirements: 3-5 specific features or requirements mentioned\n- timeline: When they need it (e.g., \"ASAP\", \"3 months\", \"Q1 2026\")\n- budget: Any budget mentioned, or \"Flexible\" if not stated\n\nEXAMPLE OUTPUT:\n\x7b\n    \"client_name\": \"Debabrata G.\",\n    \"company\": \"Investment Firm\",\n    \"email\": \"debabrata@example.com\",\n    \"project_type\": \"AI Portfolio Management System\",\n    \"requirements\": [\"Real-time tracking\", \"Risk analysis\", \"Trading alerts\"],\n    \"timeline\": \"3 months\",\n    \"budget\": \"$15000-$25000\"\n\x7d\n\nReturn ONLY valid JSON with extracted data:"

/-- The planning prompt of `generate_plan` (nodes.py lines 148-202). -/
def plan_prompt (pt cn comp reqs tl : String) : String :=
  "Create a realistic project plan for this inquiry.\n\nProject: " ++ pt ++ "\nClient: " ++ cn ++ "\nCompany: " ++ comp ++ "\nRequirements: " ++ reqs ++ "\nTimeline: " ++ tl ++ "\n\nPLANNING GUIDELINES:\n- Generate 5 phases: Discovery, Core Dev, Frontend/UI, Testing, Deployment\n- Assign realistic duration and hours per phase\n- Each phase has 4-5 specific tasks\n- Complexity levels: simple (40-80 hrs), medium (80-120 hrs), complex (120-200 hrs)\n- For finance/portfolio projects: assume COMPLEX (160 hrs)\n- For generic/simple projects: assume MEDIUM (80 hrs)\n\nEXAMPLE COMPLEX PROJECT (160 hours):\n\x7b\n    \"complexity\": \"complex\",\n    \"total_estimated_hours\": 160,\n    \"phases\": [\n        \x7b\n            \"name\": \"Phase 1: Discovery & Requirements\",\n            \"duration\": \"1.5 weeks\",\n            \"hours\": 20,\n            \"tasks\": [\"Detailed requirements gathering\", \"Technical design\", \"Architecture review\", \"Security planning\"]\n        \x7d,\n        \x7b\n            \"name\": \"Phase 2: Core Backend Development\",\n            \"duration\": \"3 weeks\",\n            \"hours\": 60,\n            \"tasks\": [\"Database design\", \"API endpoints\", \"Authentication\", \"Integration services\"]\n        \x7d,\n        \x7b\n            \"name\": \"Phase 3: Frontend & User Interface\",\n            \"duration\": \"2 weeks\",\n            \"hours\": 40,\n            \"tasks\": [\"UI/UX design\", \"React components\", \"State management\", \"Responsive design\"]\n        \x7d,\n        \x7b\n            \"name\": \"Phase 4: Testing & Quality Assurance\",\n            \"duration\": \"1.5 weeks\",\n            \"hours\": 25,\n            \"tasks\": [\"Unit tests\", \"Integration tests\", \"Performance testing\", \"Security audit\"]\n        \x7d,\n        \x7b\n            \"name\": \"Phase 5: Deployment & Handoff\",\n            \"duration\": \"1 week\",\n            \"hours\": 15,\n            \"tasks\": [\"Production setup\", \"Documentation\", \"Staff training\", \"Support plan\"]\n        \x7d\n    ]\n\x7d\n\nReturn ONLY valid JSON with project plan:"

/-! ### Stage 1: classification -/

/-- The state update applied when the classification try-block fails
(nodes.py lines 62-74). -/
def classifyFail (st : Dict) (msg : String) : Dict :=
  st.updateL [("is_valid_inquiry", .bool false), ("confidence_score", .num 0),
    ("current_step", .str "classification_failed"), ("error", .str msg)]

/-- The state update applied when classification succeeds
(nodes.py lines 56-61). -/
def classifyOk (st : Dict) (v c r : Json) : Dict :=
  st.updateL [("is_valid_inquiry", v), ("confidence_score", c),
    ("classification_reason", r), ("current_step", .str "classified")]

/-- `classify_email` (nodes.py lines 22-76).  The prompt is built outside
the try-block, so missing email fields raise to the caller; every failure
inside the try-block is converted into the negative-classification update.
The `response = None` initialization means a raised `invoke` with an empty
`str(e)` selects the `"Empty response from LLM"` message, and every other
failure the `"LLM Error: "`-prefixed one.  `classify_core` is the
try/except body as a function of the invoke outcome: it never raises. -/
def classify_core (st : Dict) (r : LLMResult) : Dict :=
  match r with
  | .err m =>
    classifyFail st (if m = "" then "Empty response from LLM" else "LLM Error: " ++ m)
  | .ok s =>
    match json_loads (clean_json s) with
    | none => classifyFail st ("LLM Error: " ++ jsonDecodeMsg)
    | some (.obj kvs) =>
      (match assocGet kvs "is_valid" with
       | none => classifyFail st ("LLM Error: " ++ keyErrStr "is_valid")
       | some v =>
         match assocGet kvs "confidence" with
         | none => classifyFail st ("LLM Error: " ++ keyErrStr "confidence")
         | some c =>
           classifyOk st v c ((assocGet kvs "reason").getD (.str "No reason provided")))
    | some _ => classifyFail st ("LLM Error: " ++ subscriptMsg)

def classify_email (llm : LLM) (st : Dict) : Except String Dict :=
  match st.get? "email_subject", st.get? "email_from", st.get? "email_body" with
  | some vS, some vF, some vB =>
    .ok (classify_core st (llm (classify_prompt (pyStr vS) (pyStr vF) (pyStr vB))))
  | _, _, _ => .error "KeyError: email fields"

/-! ### Stage 2: extraction -/

/-- The characters `re.sub(r"[0-9_.-]", " ", username)` replaces. -/
def isNameNoise (c : Char) : Bool := c.isDigit || c = '_' || c = '.' || c = '-'

/-- `re.sub(r"[0-9_.-]", " ", s)`. -/
def nameSub (s : String) : String :=
  String.mk (s.data.map (fun c => if isNameNoise c then ' ' else c))

/-- The name-recovery algorithm of the extraction fallback
(nodes.py lines 117-132): display-name before an angle bracket, trimmed;
otherwise the local part with noise characters spaced out, split into
words, each capitalized; `"Valued Client"` when the result is empty. -/
def fallback_client_name (email_from : String) : String :=
  let client_name :=
    if charIn '<' email_from then pyStrip (takeBefore '<' email_from)
    else
      let username := takeBefore '@' email_from
      let name_parts := pyStrip (nameSub username)
      joinSep " " ((pySplitWs name_parts).map pyCapitalize)
  if client_name = "" then "Valued Client" else client_name

/-- The state update of the extraction fallback (nodes.py lines 131-140). -/
def extractFallback (st : Dict) (ef : String) (emsg : String) : Dict :=
  st.updateL [("client_name", .str (fallback_client_name ef)),
    ("company", .null),
    ("project_type", st.getD "email_subject" (.str "Custom Project")),
    ("requirements", .arr [.str "Discuss detailed requirements"]),
    ("timeline", .str "To be determined"),
    ("budget", .str "Flexible"),
    ("current_step", .str "extraction_fallback"),
    ("error", .str emsg)]

/-- `extract_requirements` (nodes.py lines 78-142).  On a parsed JSON
object the code runs `state.update({**data, "current_step": "extracted"})`,
merging whatever keys the object carries; every in-try failure falls back
to the deterministic name recovery, whose string operations need
`email_from` to be an actual string, else its exception propagates.
`extract_core` is the try/except body as a function of the invoke
outcome. -/
def extract_core (st : Dict) (vF : Json) (r : LLMResult) : Except String Dict :=
  let fallback : String → Except String Dict := fun emsg =>
    match vF with
    | .str ef => .ok (extractFallback st ef emsg)
    | _ => .error "TypeError: email_from"
  match r with
  | .err m => fallback m
  | .ok s =>
    match json_loads (clean_json s) with
    | none => fallback jsonDecodeMsg
    | some (.obj kvs) => .ok (st.updateL (kvs ++ [("current_step", .str "extracted")]))
    | some _ => fallback notMappingMsg

def extract_requirements (llm : LLM) (st : Dict) : Except String Dict :=
  match st.get? "email_from", st.get? "email_subject", st.get? "email_body" with
  | some vF, some vS, some vB =>
    extract_core st vF (llm (extract_prompt (pyStr vF) (pyStr vS) (pyStr vB)))
  | _, _, _ => .error "KeyError: email fields"

/-! ### Stage 3: planning -/

/-- `", ".join(x)` with Python's iteration semantics: lists of strings
join their elements, a string joins its characters, a dict joins its keys,
anything else raises `TypeError`. -/
def joinPy (sep : String) (v : Json) : Except String String :=
  match v with
  | .arr l =>
    if l.all (fun j => match j with | .str _ => true | _ => false)
    then .ok (joinSep sep (l.map (fun j => match j with | .str s => s | _ => "")))
    else .error "TypeError: sequence item"
  | .str s => .ok (joinSep sep (s.data.map (fun c => String.mk [c])))
  | .obj kvs => .ok (joinSep sep (kvs.map Prod.fst))
  | _ => .error "TypeError: can only join an iterable"

/-- The plan dict synthesized by the planning fallback
(nodes.py lines 219-228): four phases with `hours // 5`,
`hours // 5 * 2`, `hours // 5`, `hours // 5` hour shares. -/
def plan_fallback_obj (isComplex : Bool) : Json :=
  let hours : Nat := if isComplex then 160 else 80
  let complexity : String := if isComplex then "complex" else "medium"
  .obj [("complexity", .str complexity),
    ("total_estimated_hours", .num hours),
    ("phases", .arr [
      .obj [("name", .str "Phase 1: Discovery"),
        ("tasks", .arr [.str "Requirements", .str "Design", .str "Planning"]),
        ("duration", .str "1-2 weeks"), ("hours", .num (hours / 5 : Nat))],
      .obj [("name", .str "Phase 2: Development"),
        ("tasks", .arr [.str "Backend", .str "Frontend", .str "Integration"]),
        ("duration", .str "2-3 weeks"), ("hours", .num (hours / 5 * 2 : Nat))],
      .obj [("name", .str "Phase 3: Testing"),
        ("tasks", .arr [.str "QA", .str "Bug fixes", .str "Optimization"]),
        ("duration", .str "1 week"), ("hours", .num (hours / 5 : Nat))],
      .obj [("name", .str "Phase 4: Deployment"),
        ("tasks", .arr [.str "Staging", .str "Launch", .str "Monitoring"]),
        ("duration", .str "1 week"), ("hours", .num (hours / 5 : Nat))]])]

/-- `generate_plan` (nodes.py lines 144-231).  The prompt accesses
`requirements` (with a default), `project_type` and `client_name`; the
fallback branch reads `project_type.lower()` and therefore raises when
`project_type` is not a string.  `plan_core` is the try/except body as a
function of the invoke outcome. -/
def plan_core (st : Dict) (vPT : Json) (r : LLMResult) : Except String Dict :=
  let fallback : Except String Dict :=
    match vPT with
    | .str pt =>
      let isComplex := strContains (pyLower pt) "portfolio" || strContains (pyLower pt) "finance"
      .ok ((st.insert "project_plan" (plan_fallback_obj isComplex)).insert "current_step"
        (.str "planned_fallback"))
    | _ => .error "AttributeError: lower"
  match r with
  | .err _ => fallback
  | .ok s =>
    match json_loads (clean_json s) with
    | some j => .ok ((st.insert "project_plan" j).insert "current_step" (.str "planned"))
    | none => fallback

def generate_plan (llm : LLM) (st : Dict) : Except String Dict :=
  match joinPy ", " (st.getD "requirements" (.arr [])) with
  | .error e => .error e
  | .ok reqs =>
  match st.get? "project_type" with
  | none => .error ("KeyError: " ++ keyErrStr "project_type")
  | some vPT =>
  match st.get? "client_name" with
  | none => .error ("KeyError: " ++ keyErrStr "client_name")
  | some vCN =>
  plan_core st vPT (llm (plan_prompt (pyStr vPT) (pyStr vCN)
    (pyStr (st.getD "company" (.str "Unknown"))) reqs
    (pyStr (st.getD "timeline" (.str "Not specified")))))

/-! ### Stage 4: cost calculation

`calculate_cost` in nodes.py imports `app.services.cost_service`, whose
implementation is not in the source tree; the calculator itself is
modelled from the spec (§4.5, §3). -/

/-- Rational multiplication assembled with `mkRat` (definitionally
kernel-reducible, unlike `Rat.mul`); proved equal to `*` below. -/
def qMul (a b : ℚ) : ℚ := mkRat (a.num * b.num) (a.den * b.den)

/-- Rounding to the nearest integer, computed from the numerator and
denominator (definitionally kernel-reducible); proved equal to `round`
below. -/
def roundQ (q : ℚ) : ℤ := Rat.floor (mkRat (2 * q.num + (q.den : Int)) (2 * q.den))

/-- Modelled from the spec: the complexity multiplier table of the missing
`app/services/cost_service.py` — `simple:1.0, medium:1.5, complex:2.0`,
default `1.5` for unrecognized tiers (§4.5). -/
def cost_multiplier (complexity : String) : ℚ :=
  if complexity = "simple" then 1
  else if complexity = "medium" then mkRat 3 2
  else if complexity = "complex" then 2
  else mkRat 3 2

/-- Modelled from the spec: `base = hours * rate * multiplier` (§4.5).
The base hourly rate is left abstract since the spec names but does not
fix it. -/
def cost_base (rate hours : ℚ) (complexity : String) : ℚ :=
  qMul (qMul hours rate) (cost_multiplier complexity)

/-- Modelled from the spec: the missing `calculate_cost(hours, complexity)`
of `app/services/cost_service.py` — `min = round(base*0.9)`,
`max = round(base*1.1)` (§4.5), returned together with the input hours and
complexity to form the `cost_estimate` record of §3. -/
def cost_service_calculate (rate hours : ℚ) (complexity : String) : Json :=
  let base := cost_base rate hours complexity
  .obj [("min", .num (roundQ (qMul base (mkRat 9 10)) : ℤ)),
    ("max", .num (roundQ (qMul base (mkRat 11 10)) : ℤ)),
    ("hours", .num hours),
    ("complexity", .str complexity)]

/-- Python `j[k]` on a JSON value: dict lookup, `KeyError` on a missing
key, `TypeError` on anything that is not a dict. -/
def jSub (j : Json) (k : String) : Except String Json :=
  match j with
  | .obj kvs =>
    (match assocGet kvs k with
     | some v => .ok v
     | none => .error ("KeyError: " ++ keyErrStr k))
  | _ => .error ("TypeError: " ++ subscriptMsg)

/-- The `calculate_cost` node (nodes.py lines 233-244): pure business
logic with no try/except, so malformed upstream data propagates as an
error.  The rate parameter threads the spec-modelled base hourly rate. -/
def calculate_cost_node (rate : ℚ) (st : Dict) : Except String Dict :=
  match st.get? "project_plan" with
  | none => .error ("KeyError: " ++ keyErrStr "project_plan")
  | some pp =>
  match jSub pp "total_estimated_hours" with
  | .error e => .error e
  | .ok hv =>
  match jSub pp "complexity" with
  | .error e => .error e
  | .ok cv =>
  match hv, cv with
  | .num h, .str c =>
    .ok ((st.insert "cost_estimate" (cost_service_calculate rate h c)).insert "current_step"
      (.str "costed"))
  | _, _ => .error "TypeError: cost arguments"

/-! ### Stage 5: proposal generation -/

/-- One bullet of `phases_text` (nodes.py line 249):
`f"• {p['name']}: {p['duration']} ({p.get('hours', '?')} hours)"`. -/
def phase_line (j : Json) : Except String String :=
  match j with
  | .obj kvs =>
    (match assocGet kvs "name" with
     | none => .error ("KeyError: " ++ keyErrStr "name")
     | some n =>
       match assocGet kvs "duration" with
       | none => .error ("KeyError: " ++ keyErrStr "duration")
       | some d =>
         .ok ("• " ++ pyStr n ++ ": " ++ pyStr d ++ " (" ++
           pyStr ((assocGet kvs "hours").getD (.str "?")) ++ " hours)"))
  | _ => .error ("TypeError: " ++ subscriptMsg)

/-- All bullets of `phases_text`, failing as soon as one phase record is
malformed. -/
def phaseLines : List Json → Except String (List String)
  | [] => .ok []
  | p :: rest =>
    match phase_line p with
    | .error e => .error e
    | .ok s =>
      match phaseLines rest with
      | .error e => .error e
      | .ok l => .ok (s :: l)

/-- Python `f"{x:,}"`: integers gain thousands separators; other numbers
render plainly; non-numbers raise. -/
def formatComma (j : Json) : Except String String :=
  match j with
  | .num q => if q.den = 1 then .ok (intComma q.num) else .ok (pyStr j)
  | .bool b => .ok (if b then "1" else "0")
  | _ => .error "ValueError: format"

/-- The values `generate_proposal` reads from the state before its
try-block (nodes.py lines 248-290): all of them can raise to the caller. -/
structure PropData where
  cn : String
  sender : String
  comp : String
  pt : String
  phasesText : String
  thS : String
  cx : Json
  cminS : String
  cmaxS : String
  tl : String

/-- Gather the pre-try inputs of `generate_proposal`, propagating the
exception any malformed field raises. -/
def proposal_inputs (st : Dict) : Except String PropData :=
  match st.get? "project_plan" with
  | none => .error ("KeyError: " ++ keyErrStr "project_plan")
  | some pp =>
  match jSub pp "phases" with
  | .error e => .error e
  | .ok phv =>
  match (match phv with
         | .arr l => phaseLines l
         | _ => .error "TypeError: phases is not a list") with
  | .error e => .error e
  | .ok lines =>
  match st.get? "cost_estimate" with
  | none => .error ("KeyError: " ++ keyErrStr "cost_estimate")
  | some cost =>
  match jSub cost "min" with
  | .error e => .error e
  | .ok cmin =>
  match jSub cost "max" with
  | .error e => .error e
  | .ok cmax =>
  match formatComma cmin with
  | .error e => .error e
  | .ok cminS =>
  match formatComma cmax with
  | .error e => .error e
  | .ok cmaxS =>
  match st.get? "client_name" with
  | none => .error ("KeyError: " ++ keyErrStr "client_name")
  | some vCN =>
  match st.get? "email_from" with
  | none => .error ("KeyError: " ++ keyErrStr "email_from")
  | some vEF =>
  match st.get? "project_type" with
  | none => .error ("KeyError: " ++ keyErrStr "project_type")
  | some vPT =>
  match jSub pp "total_estimated_hours" with
  | .error e => .error e
  | .ok th =>
  match jSub pp "complexity" with
  | .error e => .error e
  | .ok cx =>
  .ok { cn := pyStr vCN, sender := pyStr vEF,
        comp := pyStr (st.getD "company" (.str "their organization")),
        pt := pyStr vPT, phasesText := joinSep "\n" lines, thS := pyStr th,
        cx := cx, cminS := cminS, cmaxS := cmaxS,
        tl := pyStr (st.getD "timeline" (.str "8-12 weeks")) }

/-- The proposal prompt of `generate_proposal` (nodes.py lines 252-290). -/
def proposal_prompt (pd : PropData) : String :=
  "Write a professional, personalized proposal email body (NO email headers, NO subject line).\n\nCLIENT DETAILS:\nName: " ++ pd.cn ++ "\nEmail: " ++ pd.sender ++ "\nCompany: " ++ pd.comp ++ "\nProject: " ++ pd.pt ++ "\n\nPROJECT PLAN:\n" ++ pd.phasesText ++ "\n\nBUSINESS TERMS:\nTotal Hours: " ++ pd.thS ++ "\nComplexity: " ++ pyStr pd.cx ++ "\nInvestment: $" ++ pd.cminS ++ " - $" ++ pd.cmaxS ++ "\nTimeline: " ++ pd.tl ++ "\n\nCRITICAL REQUIREMENTS:\n- Address the client by their ACTUAL name: " ++ pd.cn ++ "\n- Sign with \"OttoMail Solutions Team\" (NO placeholders like [Your Name])\n- Use proper paragraph breaks (double newlines between sections)\n- DO NOT use placeholders like [Company Name] or [Your Name] - use actual values\n- Be specific about the project type: " ++ pd.pt ++ "\n\nPROPOSAL STRUCTURE:\n1. Greeting: Address " ++ pd.cn ++ " personally\n2. Understanding: Show you understand their " ++ pd.pt ++ " needs\n3. Approach: Your methodology and why it works\n4. Project Breakdown: Summarize the 5 phases with clear formatting\n5. Investment: Cost range $" ++ pd.cminS ++ " - $" ++ pd.cmaxS ++ " and what\x27s included\n6. Business Value: Why this is worth the investment\n7. Next Steps: Clear call-to-action (schedule call, etc.)\n8. Sign-off: \"Best regards,\nOttoMail Solutions Team\"\n\nTONE: Professional, confident, business-focused (not salesy)\nLENGTH: 400-600 words\nFORMATTING: Use double line breaks between sections for readability\n\nReturn ONLY the email body text (no JSON, no markdown formatting, just plain text with line breaks):"

/-- The deterministic fallback proposal template (nodes.py lines 296-330),
rendered with the client-specific values. -/
def proposal_fallback_text (pd : PropData) (fr cxU : String) : String :=
  "Dear " ++ pd.cn ++ ",\n\nThank you for reaching out regarding your " ++ pd.pt ++ " project. We\x27re excited about this opportunity.\n\n**Understanding Your Needs**\nBased on your inquiry, we understand you need a sophisticated solution with specific requirements including " ++ fr ++ ". We have experience delivering projects of this complexity and scope.\n\n**Our Approach**\nWe follow a structured 5-phase development methodology:\n\n" ++ pd.phasesText ++ "\n\nThis phased approach ensures quality at each stage and allows for regular feedback and adjustments.\n\n**Project Investment**\nBased on our analysis, the estimated investment for your project is:\n- Total Development Hours: " ++ pd.thS ++ " hours\n- Complexity Level: " ++ cxU ++ "\n- Cost Range: $" ++ pd.cminS ++ " - $" ++ pd.cmaxS ++ "\n- Timeline: " ++ pd.tl ++ "\n\n**Why This Investment**\nThis budget covers comprehensive development, rigorous testing, and deployment support. We focus on delivering long-term value and ensuring your system is maintainable and scalable.\n\n**Next Steps**\nWe\x27d like to schedule a 30-minute discovery call to:\n1. Confirm specific requirements\n2. Discuss timeline and priorities\n3. Address any questions\n4. Provide a detailed project plan\n\nPlease let me know your availability for this week or next.\n\nBest regards,\nOttoMail Solutions"

/-- `state['requirements'][0] if state['requirements'] else 'custom functionality'`
(nodes.py line 301), as interpolated into the fallback template. -/
def first_requirement (v : Json) : Except String String :=
  if truthy v then
    match v with
    | .arr (x :: _) => .ok (pyStr x)
    | .str s => .ok (String.mk (s.data.take 1))
    | _ => .error ("TypeError: " ++ subscriptMsg)
  else .ok "custom functionality"

/-- `generate_proposal` (nodes.py lines 246-333).  On success the raw
completion is stored verbatim as `proposal_text`; on failure the fixed
template is rendered — which itself reads `requirements` and
`complexity.upper()` and can raise.  `proposal_core` is the try/except
body as a function of the invoke outcome. -/
def proposal_core (st : Dict) (pd : PropData) (r : LLMResult) : Except String Dict :=
  match r with
  | .ok s => .ok ((st.insert "proposal_text" (.str s)).insert "current_step"
      (.str "proposal_generated"))
  | .err _ =>
    match st.get? "requirements" with
    | none => .error ("KeyError: " ++ keyErrStr "requirements")
    | some reqv =>
    match first_requirement reqv with
    | .error e => .error e
    | .ok fr =>
    match pd.cx with
    | .str cxs =>
      .ok ((st.insert "proposal_text"
        (.str (proposal_fallback_text pd fr (pyUpper cxs)))).insert "current_step"
        (.str "proposal_fallback"))
    | _ => .error "AttributeError: upper"

def generate_proposal (llm : LLM) (st : Dict) : Except String Dict :=
  match proposal_inputs st with
  | .error e => .error e
  | .ok pd => proposal_core st pd (llm (proposal_prompt pd))

/-! ### Stages 6-8: storage, draft creation, notification

The graph of agent/graph.py names `store`, `draft` and `notify` nodes whose
implementations are not in the source tree; they are modelled from the
spec. -/

/-- Modelled from the spec: the storage stage (the `store_in_database` node
of agent/graph.py, implementation missing from the source tree).  Per §6
and §4.7 it persists client and proposal records, merges the
collaborator-produced ids back into the state, and reaches
`current_step="stored"`; the opaque ids are modelled as fixed tokens. -/
def store_in_database (st : Dict) : Except String Dict :=
  .ok (st.updateL [("client_id", .str "client-id"), ("proposal_id", .str "proposal-id"),
    ("current_step", .str "stored")])

/-- Modelled from the spec: the draft-creation stage (the
`create_email_draft` node of agent/graph.py, implementation missing from
the source tree).  Per §4.7 Branch B it unconditionally sets
`needs_human_review` true once a draft exists, reaching
`current_step="draft_created"`; drafts are never auto-sent. -/
def create_email_draft (st : Dict) : Except String Dict :=
  .ok (st.updateL [("needs_human_review", .bool true),
    ("current_step", .str "draft_created")])

/-- Modelled from the spec: the notification stage (the `send_notification`
node of agent/graph.py, implementation missing from the source tree) — a
best-effort, fire-and-forget message, reaching `current_step="notified"`. -/
def send_notification (st : Dict) : Except String Dict :=
  .ok (st.insert "current_step" (.str "notified"))

/-! ### The Gemini provider's invoke wrapper -/

/-- The canned classification completion `GeminiService.invoke` substitutes
on an API error (gemini_service.py line 36). -/
def gemini_classify_fallback : String :=
  "\x7b\"is_valid\": true, \"confidence\": 0.5, \"reason\": \"Fallback: Gemini API Error\"\x7d"

/-- The canned planning completion (gemini_service.py line 38). -/
def gemini_plan_fallback : String :=
  "\x7b\"complexity\": \"low\",\"total_estimated_hours\": 10,\"phases\": [\x7b\"name\": \"Phase 1\",\"duration\": \"1 week\",\"hours\": 10,\"tasks\": [\"Initial Consultation\"]\x7d]\x7d"

/-- The canned proposal completion (gemini_service.py line 40; the Python
source writes `\\n`, so the rendered text contains literal backslash-n
pairs). -/
def gemini_proposal_fallback : String :=
  "Dear Client,\\n\\nThank you for your email. We are currently experiencing high demand on our AI servers. Please contact us directly to discuss your project.\\n\\nBest regards,\\nOttoMail (Fallback Mode)"

/-- The canned completion for unrecognized prompts (gemini_service.py
line 41). -/
def gemini_generic_fallback : String := "\x7b\"response\": \"Error in Gemini API\"\x7d"

/-- `GeminiService.invoke` (gemini_service.py lines 24-41): forward the
underlying API result; on an API exception, re-raise for extraction
prompts and substitute a canned completion chosen by substring-sniffing
the prompt otherwise. -/
def gemini_invoke (api : LLM) (prompt : String) : LLMResult :=
  match api prompt with
  | .ok s => .ok s
  | .err e =>
    if strContains prompt "Extract structured information" then .err e
    else if strContains prompt "Classify if this email" then .ok gemini_classify_fallback
    else if strContains prompt "Create a realistic project plan" then .ok gemini_plan_fallback
    else if strContains prompt "Write a professional" then .ok gemini_proposal_fallback
    else .ok gemini_generic_fallback

/-! ### The router (agent/graph.py) -/

/-- The initial state built by `process_email` (graph.py lines 86-96). -/
def initial_state (id sender subject body : String) : Dict :=
  [("messages", .arr []), ("email_id", .str id), ("email_from", .str sender),
   ("email_subject", .str subject), ("email_body", .str body),
   ("is_valid_inquiry", .bool false), ("needs_human_review", .bool false),
   ("processing_step", .str "started"), ("confidence_score", .num 0)]

/-- The compiled graph of agent/graph.py: classify, then the
`should_process` branch on the truthiness of `is_valid_inquiry`
(terminate when falsy), then the linear extract → plan → cost → propose →
store → draft chain, then the `should_notify` branch on
`needs_human_review`. -/
def runPipeline (rate : ℚ) (llm : LLM) (st0 : Dict) : Except String Dict :=
  match classify_email llm st0 with
  | .error e => .error e
  | .ok s1 =>
    match s1.get? "is_valid_inquiry" with
    | none => .error ("KeyError: " ++ keyErrStr "is_valid_inquiry")
    | some v =>
      if truthy v then
        match extract_requirements llm s1 with
        | .error e => .error e
        | .ok s2 =>
        match generate_plan llm s2 with
        | .error e => .error e
        | .ok s3 =>
        match calculate_cost_node rate s3 with
        | .error e => .error e
        | .ok s4 =>
        match generate_proposal llm s4 with
        | .error e => .error e
        | .ok s5 =>
        match store_in_database s5 with
        | .error e => .error e
        | .ok s6 =>
        match create_email_draft s6 with
        | .error e => .error e
        | .ok s7 =>
        match s7.get? "needs_human_review" with
        | none => .error ("KeyError: " ++ keyErrStr "needs_human_review")
        | some w => if truthy w then send_notification s7 else .ok s7
      else .ok s1

/-! ### Auxiliary definitions used by the specification statements -/

/-- Title-case one word, as the spec words it: first letter uppercased,
the rest lowercased. -/
def titleCaseWord (w : String) : String :=
  pyUpper (String.mk (w.data.take 1)) ++ pyLower (String.mk (w.data.drop 1))

/-- The name-recovery algorithm exactly as §4.3 of the spec words it:
text before an angle bracket, trimmed; otherwise the local part before
`@` with digits/underscore/dot/hyphen replaced by spaces, split into
words, each word title-cased; `"Valued Client"` if the derived name is
empty.  (The spec omits the interior `strip()` the code performs before
splitting; whitespace-splitting makes it irrelevant, which is proved
below.) -/
def spec_derived_name (addr : String) : String :=
  let derived :=
    if charIn '<' addr then pyStrip (takeBefore '<' addr)
    else
      let localPart := takeBefore '@' addr
      joinSep " " ((pySplitWs (nameSub localPart)).map titleCaseWord)
  if derived = "" then "Valued Client" else derived

/-- The four immutable email identity fields of the state (§3). -/
def identity_keys : List String :=
  ["email_id", "email_from", "email_subject", "email_body"]

/-- The `complexity` field of a plan record. -/
def planComplexity (j : Json) : Option String :=
  match j with
  | .obj kvs =>
    (match assocGet kvs "complexity" with
     | some (.str s) => some s
     | _ => none)
  | _ => none

/-- The `total_estimated_hours` field of a plan record. -/
def planTotal (j : Json) : Option ℚ :=
  match j with
  | .obj kvs =>
    (match assocGet kvs "total_estimated_hours" with
     | some (.num q) => some q
     | _ => none)
  | _ => none

/-- The phase names of a plan record, in order. -/
def planPhaseNames (j : Json) : Option (List String) :=
  match j with
  | .obj kvs =>
    (match assocGet kvs "phases" with
     | some (.arr l) =>
       some (l.map (fun p =>
         match p with
         | .obj pk =>
           (match assocGet pk "name" with
            | some (.str s) => s
            | _ => "")
         | _ => ""))
     | _ => none)
  | _ => none

/-- The per-phase hour allocations of a plan record, in order. -/
def planPhaseHours (j : Json) : Option (List ℚ) :=
  match j with
  | .obj kvs =>
    (match assocGet kvs "phases" with
     | some (.arr l) =>
       some (l.map (fun p =>
         match p with
         | .obj pk =>
           (match assocGet pk "hours" with
            | some (.num q) => q
            | _ => 0)
         | _ => 0))
     | _ => none)
  | _ => none

/-! ### Basic lemmas about the state and string embedding -/

/-- First-some choice on options (value a list of update pairs gives a key,
else the old binding). -/
def oor (a b : Option Json) : Option Json :=
  match a with
  | some v => some v
  | none => b

@[simp] theorem oor_some (v : Json) (b : Option Json) : oor (some v) b = some v := rfl

@[simp] theorem oor_none (b : Option Json) : oor none b = b := rfl

theorem get?_insert (d : Dict) (k k' : String) (v : Json) :
    (d.insert k' v).get? k = if k = k' then some v else d.get? k := by
  induction d with
  | nil => simp [Dict.insert, Dict.get?, assocSet, assocGet]
  | cons p rest ih =>
    obtain ⟨k'', v''⟩ := p
    by_cases h1 : k' = k''
    · subst h1
      by_cases h2 : k = k' <;>
        simp [Dict.insert, Dict.get?, assocSet, assocGet, h2]
    · by_cases h2 : k = k''
      · subst h2
        have hne : ¬k = k' := fun hh => h1 hh.symm
        simp [Dict.insert, Dict.get?, assocSet, assocGet, h1, hne]
      · simp only [Dict.insert, Dict.get?, assocSet, assocGet, if_neg h1, if_neg h2]
        simpa [Dict.insert, Dict.get?] using ih

theorem get?_updateL (kvs : List (String × Json)) (d : Dict) (k : String) :
    (d.updateL kvs).get? k = oor (revLookup kvs k) (d.get? k) := by
  induction kvs generalizing d with
  | nil => simp [Dict.updateL, revLookup]
  | cons p rest ih =>
    show (Dict.updateL (d.insert p.1 p.2) rest).get? k = _
    rw [ih]
    show _ = oor (match revLookup rest k with
      | some v => some v
      | none => if k = p.1 then some p.2 else none) _
    cases hr : revLookup rest k with
    | some v => simp
    | none => by_cases h : k = p.1 <;> simp [h, get?_insert]

theorem revLookup_append (xs ys : List (String × Json)) (k : String) :
    revLookup (xs ++ ys) k = oor (revLookup ys k) (revLookup xs k) := by
  induction xs with
  | nil => cases hr : revLookup ys k <;> simp [revLookup, hr, oor]
  | cons p rest ih =>
    show (match revLookup (rest ++ ys) k with
      | some v => some v
      | none => if k = p.1 then some p.2 else none) = _
    rw [ih]
    cases hr : revLookup ys k with
    | some v => simp [oor]
    | none =>
      cases hx : revLookup rest k with
      | some v => simp [oor, revLookup, hx]
      | none => simp [oor, revLookup, hx]

/-- `String.append` concatenates the underlying character lists. -/
theorem strData_append (a b : String) : (a ++ b).data = a.data ++ b.data := rfl

/-- A string with a non-empty literal prefix is non-empty. -/
theorem append_ne_empty_of_left (a b : String) (h : a.data ≠ []) : a ++ b ≠ "" := by
  intro hab
  apply h
  have : (a ++ b).data = ([] : List Char) := by rw [hab]
  rw [strData_append] at this
  exact List.append_eq_nil.mp this |>.1

theorem isPrefixL_append (needle s r : List Char) (h : isPrefixL needle s = true) :
    isPrefixL needle (s ++ r) = true := by
  induction needle generalizing s with
  | nil => simp [isPrefixL]
  | cons a as ih =>
    cases s with
    | nil => simp [isPrefixL] at h
    | cons b bs =>
      simp only [isPrefixL, Bool.and_eq_true, decide_eq_true_eq] at h
      simp only [List.cons_append, isPrefixL, Bool.and_eq_true, decide_eq_true_eq]
      exact ⟨h.1, ih bs h.2⟩

theorem containsL_of_isPrefixL (needle s : List Char) (h : isPrefixL needle s = true) :
    containsL s needle = true := by
  cases s with
  | nil => simpa [containsL] using h
  | cons c t => simp [containsL, h]

/-- Strings that agree after appending share a prefix relation: a prefix of
`a` is a prefix of `a ++ r`. -/
theorem isPrefix_str_append (p a r : String) (h : isPrefixL p.data a.data = true) :
    isPrefixL p.data (a ++ r).data = true := by
  rw [strData_append]
  exact isPrefixL_append _ _ _ h

/-- Rounding (to nearest) is monotone. -/
theorem round_mono_q {x y : ℚ} (h : x ≤ y) : round x ≤ round y := by
  rw [round_eq, round_eq]
  exact Int.floor_le_floor (by linarith)

/-- Rounding a non-negative rational is non-negative. -/
theorem round_nonneg_q {x : ℚ} (h : 0 ≤ x) : 0 ≤ round x := by
  have := round_mono_q h
  simpa using this

theorem str_append_data_ne (a b : String) (h : a.data ≠ []) : (a ++ b).data ≠ [] := by
  rw [strData_append]
  intro hh
  exact h (List.append_eq_nil.mp hh).1

theorem ne_empty_of_data_ne (s : String) (h : s.data ≠ []) : s ≠ "" := by
  intro hh
  apply h
  rw [hh]

/-- The two classification failure messages are distinguishable: the
empty-response message differs from every exception-prefixed message. -/
theorem empty_msg_ne_llm_error (m : String) :
    "Empty response from LLM" ≠ "LLM Error: " ++ m := by
  intro h
  have h2 : ("Empty response from LLM").data.head? = ("LLM Error: " ++ m).data.head? := by
    rw [h]
  have hL : ("LLM Error: " ++ m).data.head? = some 'L' := rfl
  have hE : ("Empty response from LLM").data.head? = some 'E' := rfl
  rw [hL, hE] at h2
  exact absurd (Option.some.inj h2) (by decide)

theorem llm_error_ne_empty (m : String) : "LLM Error: " ++ m ≠ "" := by
  apply ne_empty_of_data_ne
  apply str_append_data_ne
  decide

/-! Splitting into whitespace-separated words ignores leading and trailing
whitespace, so the `strip()` the extraction fallback performs before
`split()` does not change the word list. -/

theorem splitWsL_dropWs (l : List Char) : splitWsL (dropWsL l) [] = splitWsL l [] := by
  induction l with
  | nil => rfl
  | cons c rest ih =>
    by_cases h : isPyWs c <;> simp [dropWsL, splitWsL, h, ih]

theorem splitWsL_allws (w : List Char) (hw : ∀ c ∈ w, isPyWs c) : splitWsL w [] = [] := by
  induction w with
  | nil => rfl
  | cons c rest ih =>
    have hc : isPyWs c := hw c (List.mem_cons_self c rest)
    have hrest := ih (fun d hd => hw d (List.mem_cons_of_mem c hd))
    simp [splitWsL, hc, hrest]

theorem splitWsL_append_ws (l w : List Char) (hw : ∀ c ∈ w, isPyWs c) :
    ∀ acc, splitWsL (l ++ w) acc = splitWsL l acc := by
  induction l with
  | nil =>
    intro acc
    show splitWsL w acc = splitWsL [] acc
    induction w with
    | nil => rfl
    | cons c rest ih =>
      have hc : isPyWs c := hw c (List.mem_cons_self c rest)
      have hrest : ∀ d ∈ rest, isPyWs d := fun d hd => hw d (List.mem_cons_of_mem c hd)
      cases acc with
      | nil => simp [splitWsL, hc, splitWsL_allws rest hrest]
      | cons a as => simp [splitWsL, hc, splitWsL_allws rest hrest]
  | cons c rest ih =>
    intro acc
    by_cases h : isPyWs c <;> simp [splitWsL, h, ih]

theorem dropWsL_decompose (x : List Char) :
    ∃ u, x = u ++ dropWsL x ∧ ∀ c ∈ u, isPyWs c := by
  induction x with
  | nil => exact ⟨[], rfl, by simp⟩
  | cons c rest ih =>
    by_cases h : isPyWs c
    · obtain ⟨u, hu, hws⟩ := ih
      refine ⟨c :: u, ?_, ?_⟩
      · simp [dropWsL, h]
        exact hu
      · intro d hd
        rcases List.mem_cons.mp hd with h1 | h2
        · rw [h1]; exact h
        · exact hws d h2
    · exact ⟨[], by simp [dropWsL, h], by simp⟩

theorem splitWsL_stripL (l : List Char) : splitWsL (stripL l) [] = splitWsL l [] := by
  unfold stripL
  obtain ⟨u, hu, hws⟩ := dropWsL_decompose (dropWsL l).reverse
  have hrev : dropWsL l = ((dropWsL (dropWsL l).reverse).reverse) ++ u.reverse := by
    have hc := congrArg List.reverse hu
    simpa using hc
  have hwsrev : ∀ c ∈ u.reverse, isPyWs c := fun c hc => hws c (List.mem_reverse.mp hc)
  calc splitWsL ((dropWsL (dropWsL l).reverse).reverse) []
      = splitWsL (((dropWsL (dropWsL l).reverse).reverse) ++ u.reverse) [] :=
        (splitWsL_append_ws _ _ hwsrev []).symm
    _ = splitWsL (dropWsL l) [] := by rw [← hrev]
    _ = splitWsL l [] := splitWsL_dropWs l

/-- The code's name recovery and the spec's wording of it agree on every
sender address. -/
theorem fallback_client_name_eq_spec (addr : String) :
    fallback_client_name addr = spec_derived_name addr := by
  unfold fallback_client_name spec_derived_name
  by_cases h : charIn '<' addr = true
  · simp [h]
  · simp only [h, Bool.false_eq_true, if_false]
    have hsplit : pySplitWs (pyStrip (nameSub (takeBefore '@' addr))) =
        pySplitWs (nameSub (takeBefore '@' addr)) := by
      unfold pySplitWs pyStrip
      rw [show (String.mk (stripL (nameSub (takeBefore '@' addr)).data)).data =
        stripL (nameSub (takeBefore '@' addr)).data from rfl]
      rw [splitWsL_stripL]
    rw [hsplit]
    have hcap : ∀ w : String, pyCapitalize w = titleCaseWord w := by
      intro w
      unfold pyCapitalize titleCaseWord pyUpper pyLower
      cases hw : w.data with
      | nil => rfl
      | cons c rest =>
        show String.mk (c.toUpper :: rest.map Char.toLower) = _
        rw [show (String.mk ((c :: rest).take 1)).data = [c] from rfl]
        rfl
    rw [funext hcap]

/-- The classification prompt always contains the marker the Gemini
wrapper sniffs for, whatever the email fields are: the template itself
begins with it. -/
theorem classify_prompt_has_marker (s f b : String) :
    strContains (classify_prompt s f b) "Classify if this email" = true := by
  unfold strContains classify_prompt
  apply containsL_of_isPrefixL
  apply isPrefix_str_append
  apply isPrefix_str_append
  apply isPrefix_str_append
  apply isPrefix_str_append
  apply isPrefix_str_append
  apply isPrefix_str_append
  decide

/-! Bridges between the kernel-reducible `mkRat`-based arithmetic used in
the executable definitions and the ordinary field operations on ℚ. -/

theorem qMul_eq (a b : ℚ) : qMul a b = a * b := by
  unfold qMul
  rw [Rat.mkRat_eq_div]
  push_cast
  rw [← div_mul_div_comm, Rat.num_div_den, Rat.num_div_den]

theorem mkRat_3_2 : (mkRat 3 2 : ℚ) = 3 / 2 := by
  rw [Rat.mkRat_eq_div]
  norm_num

theorem mkRat_9_10 : (mkRat 9 10 : ℚ) = 9 / 10 := by
  rw [Rat.mkRat_eq_div]
  norm_num

theorem mkRat_11_10 : (mkRat 11 10 : ℚ) = 11 / 10 := by
  rw [Rat.mkRat_eq_div]
  norm_num

theorem ratFloor_eq_floor (x : ℚ) : Rat.floor x = ⌊x⌋ := rfl

theorem roundQ_eq (q : ℚ) : roundQ q = round q := by
  unfold roundQ
  have hden : ((q.den : ℚ)) ≠ 0 := Nat.cast_ne_zero.mpr q.den_nz
  rw [ratFloor_eq_floor, round_eq]
  congr 1
  rw [Rat.mkRat_eq_div]
  push_cast
  conv_rhs => rw [← Rat.num_div_den q]
  field_simp
  ring

/-- The extraction fallback populates all six extracted fields (and the
step/error markers) at their fixed values. -/
theorem extractFallback_fields (st : Dict) (ef e : String) :
    (extractFallback st ef e).get? "client_name" = some (.str (fallback_client_name ef)) ∧
    (extractFallback st ef e).get? "company" = some .null ∧
    (extractFallback st ef e).get? "project_type" =
      some (st.getD "email_subject" (.str "Custom Project")) ∧
    (extractFallback st ef e).get? "requirements" =
      some (.arr [.str "Discuss detailed requirements"]) ∧
    (extractFallback st ef e).get? "timeline" = some (.str "To be determined") ∧
    (extractFallback st ef e).get? "budget" = some (.str "Flexible") ∧
    (extractFallback st ef e).get? "current_step" = some (.str "extraction_fallback") ∧
    (extractFallback st ef e).get? "error" = some (.str e) := by
  refine ⟨?_, ?_, ?_, ?_, ?_, ?_, ?_, ?_⟩ <;>
    simp [extractFallback, get?_updateL, revLookup]

/-- C9: The cost calculator is a pure deterministic function of
`(hours, complexity)`: with the multiplier table `simple:1.0, medium:1.5,
complex:2.0` (default 1.5 for unrecognized tiers) it computes
`base = hours * rate * multiplier`, `min = round(base*0.9)`,
`max = round(base*1.1)`; for every `hours > 0` (and positive rate) with
recognized complexity, `0 ≤ min ≤ max`, and the pre-rounding ratio
`max/min` is the fixed value `11/9 ≈ 1.222` independent of complexity. -/
theorem C9_cost_calculator (rate hours : ℚ) (complexity : String)
    (hrate : 0 < rate) (hhours : 0 < hours)
    (hc : complexity = "simple" ∨ complexity = "medium" ∨ complexity = "complex") :
    cost_multiplier "simple" = 1 ∧ cost_multiplier "medium" = 3 / 2 ∧
    cost_multiplier "complex" = 2 ∧
    (∀ c, c ≠ "simple" → c ≠ "medium" → c ≠ "complex" → cost_multiplier c = 3 / 2) ∧
    ∃ mn mx : ℤ,
      cost_service_calculate rate hours complexity =
        .obj [("min", .num (mn : ℚ)), ("max", .num (mx : ℚ)),
              ("hours", .num hours), ("complexity", .str complexity)] ∧
      mn = round (cost_base rate hours complexity * (9 / 10)) ∧
      mx = round (cost_base rate hours complexity * (11 / 10)) ∧
      0 ≤ mn ∧ mn ≤ mx ∧
      (cost_base rate hours complexity * (11 / 10)) /
        (cost_base rate hours complexity * (9 / 10)) = 11 / 9 := by
  have h32 : (0 : ℚ) < mkRat 3 2 := by rw [mkRat_3_2]; norm_num
  have hm : 0 < cost_multiplier complexity := by
    rcases hc with h | h | h <;> subst h <;> simp [cost_multiplier, h32]
  have hb : 0 < cost_base rate hours complexity := by
    unfold cost_base
    rw [qMul_eq, qMul_eq]
    exact mul_pos (mul_pos hhours hrate) hm
  have hbm : cost_base rate hours complexity = hours * rate * cost_multiplier complexity := by
    unfold cost_base
    rw [qMul_eq, qMul_eq]
  have hmin : roundQ (qMul (cost_base rate hours complexity) (mkRat 9 10)) =
      round (cost_base rate hours complexity * (9 / 10)) := by
    rw [roundQ_eq, qMul_eq, mkRat_9_10]
  have hmax : roundQ (qMul (cost_base rate hours complexity) (mkRat 11 10)) =
      round (cost_base rate hours complexity * (11 / 10)) := by
    rw [roundQ_eq, qMul_eq, mkRat_11_10]
  refine ⟨by simp [cost_multiplier], by simp [cost_multiplier, mkRat_3_2],
    by simp [cost_multiplier], fun c h1 h2 h3 => by simp [cost_multiplier, h1, h2, h3, mkRat_3_2],
    ?_⟩
  refine ⟨roundQ (qMul (cost_base rate hours complexity) (mkRat 9 10)),
    roundQ (qMul (cost_base rate hours complexity) (mkRat 11 10)), rfl, hmin, hmax, ?_, ?_, ?_⟩
  · rw [hmin]
    exact round_nonneg_q (by positivity)
  · rw [hmin, hmax]
    exact round_mono_q (by linarith)
  · rw [div_eq_iff (by positivity)]
    ring

/-- Witness for C9 at `rate = 100`, `hours = 160`, `complexity = "complex"`. -/
theorem C9_cost_calculator_witness :
    (0 : ℚ) < 100 ∧ (0 : ℚ) < 160 ∧
    ∃ mn mx : ℤ,
      cost_service_calculate 100 160 "complex" =
        .obj [("min", .num (mn : ℚ)), ("max", .num (mx : ℚ)),
              ("hours", .num 160), ("complexity", .str "complex")] ∧
      0 ≤ mn ∧ mn ≤ mx := by
  refine ⟨by norm_num, by norm_num, ?_⟩
  obtain ⟨-, -, -, -, mn, mx, heq, -, -, h1, h2, -⟩ :=
    C9_cost_calculator 100 160 "complex" (by norm_num) (by norm_num) (Or.inr (Or.inr rfl))
  exact ⟨mn, mx, heq, h1, h2⟩

/-- C8: Whenever the planning stage takes its fallback
(`current_step = "planned_fallback"`), the stored plan is
`plan_fallback_obj` of the case-insensitive "portfolio"/"finance" test of
the project type; that record has complexity "complex" with 160 total
hours on a match and "medium" with 80 otherwise, exactly the four phases
Discovery/Development/Testing/Deployment with hour shares
`h//5, 2*(h//5), h//5, h//5` — `[32,64,32,32]` in the complex case — whose
sum equals the stored total. -/
theorem C8_planning_fallback (llm : LLM) (st st' : Dict) (pt : String)
    (hPT : st.get? "project_type" = some (.str pt))
    (hrun : generate_plan llm st = .ok st')
    (hstep : st'.get? "current_step" = some (.str "planned_fallback")) :
    st'.get? "project_plan" =
      some (plan_fallback_obj
        (strContains (pyLower pt) "portfolio" || strContains (pyLower pt) "finance")) ∧
    (∀ b, planComplexity (plan_fallback_obj b) = some (if b then "complex" else "medium")) ∧
    (∀ b, planTotal (plan_fallback_obj b) = some (if b then 160 else 80)) ∧
    (∀ b, planPhaseNames (plan_fallback_obj b) =
      some ["Phase 1: Discovery", "Phase 2: Development", "Phase 3: Testing",
        "Phase 4: Deployment"]) ∧
    (∀ b, planPhaseHours (plan_fallback_obj b) =
      some (if b then [32, 64, 32, 32] else [16, 32, 16, 16])) ∧
    (∀ b, ((planPhaseHours (plan_fallback_obj b)).getD []).sum =
      (planTotal (plan_fallback_obj b)).getD 0) := by
  have hmain : st' = (st.insert "project_plan"
      (plan_fallback_obj
        (strContains (pyLower pt) "portfolio" || strContains (pyLower pt) "finance"))).insert
      "current_step" (.str "planned_fallback") := by
    unfold generate_plan at hrun
    cases hj : joinPy ", " (st.getD "requirements" (.arr [])) with
    | error e => rw [hj] at hrun; cases hrun
    | ok reqs =>
      rw [hj, hPT] at hrun
      cases hcn : st.get? "client_name" with
      | none => rw [hcn] at hrun; cases hrun
      | some vCN =>
        rw [hcn] at hrun
        simp only at hrun
        generalize llm (plan_prompt (pyStr (.str pt)) (pyStr vCN)
            (pyStr (st.getD "company" (.str "Unknown"))) reqs
            (pyStr (st.getD "timeline" (.str "Not specified")))) = r at hrun
        cases r with
        | err m =>
          simp only [plan_core] at hrun
          exact (Except.ok.inj hrun).symm
        | ok s =>
          simp only [plan_core] at hrun
          cases hp : json_loads (clean_json s) with
          | some j =>
            rw [hp] at hrun
            simp only at hrun
            exfalso
            have hst' := (Except.ok.inj hrun)
            rw [← hst'] at hstep
            rw [get?_insert] at hstep
            simp at hstep
          | none =>
            rw [hp] at hrun
            simp only at hrun
            exact (Except.ok.inj hrun).symm
  refine ⟨?_, fun b => by cases b <;> rfl, fun b => by cases b <;> rfl,
    fun b => by cases b <;> rfl, fun b => by cases b <;> rfl,
    fun b => by
      cases b <;> simp [planPhaseHours, planTotal, plan_fallback_obj, assocGet] <;> norm_num⟩
  rw [hmain, get?_insert, get?_insert]
  simp

/-- Witness for C8: a concrete portfolio-type state whose planning call
fails, yielding the complex 160-hour fallback plan. -/
theorem C8_planning_fallback_witness :
    ∃ st', generate_plan (fun _ => .err "down")
        [("project_type", Json.str "AI Portfolio Tracker"), ("client_name", Json.str "X")] =
        .ok st' ∧
      st'.get? "project_plan" = some (plan_fallback_obj true) ∧
      planComplexity (plan_fallback_obj true) = some "complex" ∧
      planTotal (plan_fallback_obj true) = some 160 ∧
      planPhaseHours (plan_fallback_obj true) = some [32, 64, 32, 32] := by
  have h := C8_planning_fallback (fun _ => .err "down")
    [("project_type", Json.str "AI Portfolio Tracker"), ("client_name", Json.str "X")]
    (Dict.insert
      (Dict.insert [("project_type", Json.str "AI Portfolio Tracker"),
        ("client_name", Json.str "X")] "project_plan" (plan_fallback_obj true))
      "current_step" (.str "planned_fallback"))
    "AI Portfolio Tracker" rfl rfl rfl
  refine ⟨_, rfl, ?_, ?_, ?_, ?_⟩
  · have h1 := h.1
    rw [show (strContains (pyLower "AI Portfolio Tracker") "portfolio" ||
      strContains (pyLower "AI Portfolio Tracker") "finance") = true from rfl] at h1
    exact h1
  · simpa using h.2.1 true
  · simpa using h.2.2.1 true
  · simpa using h.2.2.2.2.1 true

/-- C7: Whenever the extraction stage takes its fallback
(`current_step = "extraction_fallback"`), the client name is computed by
exactly the spec's algorithm (angle-bracket display name trimmed, else the
local part with digits/underscore/dot/hyphen spaced out, split and
title-cased per word, `"Valued Client"` when empty) — with the three spec
examples evaluated — and the remaining fields take the fixed defaults:
company null, project_type the email subject, a single-element
requirements list, timeline "To be determined", budget "Flexible", with
the error field set. -/
theorem C7_extraction_name_recovery (llm : LLM) (st st' : Dict) (ef : String)
    (hF : st.get? "email_from" = some (.str ef))
    (hrun : extract_requirements llm st = .ok st')
    (hstep : st'.get? "current_step" = some (.str "extraction_fallback")) :
    st'.get? "client_name" = some (.str (fallback_client_name ef)) ∧
    (∀ s, fallback_client_name s = spec_derived_name s) ∧
    fallback_client_name "krish.gupta12@example.com" = "Krish Gupta" ∧
    fallback_client_name "Jane Doe <jane@example.com>" = "Jane Doe" ∧
    fallback_client_name "123@example.com" = "Valued Client" ∧
    st'.get? "company" = some .null ∧
    st'.get? "project_type" = some (st.getD "email_subject" (.str "Custom Project")) ∧
    st'.get? "requirements" = some (.arr [.str "Discuss detailed requirements"]) ∧
    st'.get? "timeline" = some (.str "To be determined") ∧
    st'.get? "budget" = some (.str "Flexible") ∧
    (∃ e, st'.get? "error" = some (.str e)) := by
  have hmain : ∃ e, st' = extractFallback st ef e := by
    unfold extract_requirements at hrun
    rw [hF] at hrun
    cases hS : st.get? "email_subject" with
    | none => rw [hS] at hrun; cases hrun
    | some vS =>
      rw [hS] at hrun
      cases hB : st.get? "email_body" with
      | none => rw [hB] at hrun; cases hrun
      | some vB =>
        rw [hB] at hrun
        simp only at hrun
        generalize llm (extract_prompt (pyStr (.str ef)) (pyStr vS) (pyStr vB)) = r at hrun
        cases r with
        | err m =>
          simp only [extract_core] at hrun
          exact ⟨m, (Except.ok.inj hrun).symm⟩
        | ok s =>
          simp only [extract_core] at hrun
          cases hp : json_loads (clean_json s) with
          | none =>
            rw [hp] at hrun
            simp only at hrun
            exact ⟨jsonDecodeMsg, (Except.ok.inj hrun).symm⟩
          | some j =>
            rw [hp] at hrun
            cases j with
            | obj kvs =>
              simp only at hrun
              exfalso
              have hst' := (Except.ok.inj hrun)
              rw [← hst'] at hstep
              rw [get?_updateL, revLookup_append] at hstep
              simp [revLookup] at hstep
            | null => exact ⟨notMappingMsg, (Except.ok.inj hrun).symm⟩
            | bool b => exact ⟨notMappingMsg, (Except.ok.inj hrun).symm⟩
            | num q => exact ⟨notMappingMsg, (Except.ok.inj hrun).symm⟩
            | str s2 => exact ⟨notMappingMsg, (Except.ok.inj hrun).symm⟩
            | arr l => exact ⟨notMappingMsg, (Except.ok.inj hrun).symm⟩
  obtain ⟨e, he⟩ := hmain
  obtain ⟨f1, f2, f3, f4, f5, f6, f7, f8⟩ := extractFallback_fields st ef e
  subst he
  exact ⟨f1, fallback_client_name_eq_spec, by decide, by decide, by decide,
    f2, f3, f4, f5, f6, ⟨e, f8⟩⟩

/-- Witness for C7 at the spec's first example address. -/
theorem C7_extraction_name_recovery_witness :
    ∃ st', extract_requirements (fun _ => .err "down")
        [("email_from", Json.str "krish.gupta12@example.com"),
         ("email_subject", Json.str "Site"), ("email_body", Json.str "B")] = .ok st' ∧
      st'.get? "client_name" = some (.str "Krish Gupta") ∧
      st'.get? "company" = some .null ∧
      st'.get? "budget" = some (.str "Flexible") := by
  have h := C7_extraction_name_recovery (fun _ => .err "down")
    [("email_from", Json.str "krish.gupta12@example.com"),
     ("email_subject", Json.str "Site"), ("email_body", Json.str "B")]
    (extractFallback
      [("email_from", Json.str "krish.gupta12@example.com"),
       ("email_subject", Json.str "Site"), ("email_body", Json.str "B")]
      "krish.gupta12@example.com" "down")
    "krish.gupta12@example.com" rfl rfl rfl
  refine ⟨_, rfl, ?_, h.2.2.2.2.2.1, h.2.2.2.2.2.2.2.2.2.1⟩
  have h1 := h.1
  rw [h.2.2.1] at h1
  exact h1

/-- C2: Given a state with the email fields present, classification never
propagates an error; on a transport failure it stores the
empty-vs-exception distinguishing message, on a parse failure (including
the empty completion, whose parse fails) the `"LLM Error: "`-prefixed
decode message; every failure message is non-empty, the failure update
sets exactly `is_valid_inquiry=false`, `confidence_score=0.0`,
`current_step="classification_failed"` and `error`, and the two message
families are distinguishable. -/
theorem C2_classification_failure (llm : LLM) (st : Dict) (vS vF vB : Json)
    (hS : st.get? "email_subject" = some vS)
    (hF : st.get? "email_from" = some vF)
    (hB : st.get? "email_body" = some vB) :
    (∃ st', classify_email llm st = .ok st') ∧
    (∀ m, llm (classify_prompt (pyStr vS) (pyStr vF) (pyStr vB)) = .err m →
      ∃ e, classify_email llm st = .ok (classifyFail st e) ∧ e ≠ "" ∧
        (m = "" → e = "Empty response from LLM") ∧
        (m ≠ "" → e = "LLM Error: " ++ m)) ∧
    (∀ s, llm (classify_prompt (pyStr vS) (pyStr vF) (pyStr vB)) = .ok s →
      json_loads (clean_json s) = none →
      classify_email llm st = .ok (classifyFail st ("LLM Error: " ++ jsonDecodeMsg)) ∧
      ("LLM Error: " ++ jsonDecodeMsg) ≠ "") ∧
    json_loads (clean_json "") = none ∧
    (∀ st₂ e, (classifyFail st₂ e).get? "is_valid_inquiry" = some (.bool false) ∧
      (classifyFail st₂ e).get? "confidence_score" = some (.num 0) ∧
      (classifyFail st₂ e).get? "current_step" = some (.str "classification_failed") ∧
      (classifyFail st₂ e).get? "error" = some (.str e)) ∧
    (∀ m, "Empty response from LLM" ≠ "LLM Error: " ++ m) := by
  refine ⟨?_, ?_, ?_, rfl, ?_, empty_msg_ne_llm_error⟩
  · unfold classify_email
    rw [hS, hF, hB]
    exact ⟨_, rfl⟩
  · intro m hl
    refine ⟨if m = "" then "Empty response from LLM" else "LLM Error: " ++ m, ?_, ?_, ?_, ?_⟩
    · unfold classify_email
      rw [hS, hF, hB]
      simp only
      rw [hl]
      rfl
    · by_cases hm : m = "" <;> simp [hm]
      exact llm_error_ne_empty m
    · intro hm; simp [hm]
    · intro hm; simp [hm]
  · intro s hl hp
    constructor
    · unfold classify_email
      rw [hS, hF, hB]
      simp only
      rw [hl]
      simp only [classify_core, hp]
    · exact llm_error_ne_empty jsonDecodeMsg
  · intro st₂ e
    refine ⟨?_, ?_, ?_, ?_⟩ <;> simp [classifyFail, get?_updateL, revLookup]

/-- Witness for C2: a transport failure with message `"boom"` on a
concrete state. -/
theorem C2_classification_failure_witness :
    ∃ st', classify_email (fun _ => .err "boom")
        (initial_state "i" "a@b.c" "S" "B") = .ok st' ∧
      st'.get? "is_valid_inquiry" = some (.bool false) ∧
      st'.get? "confidence_score" = some (.num 0) ∧
      st'.get? "current_step" = some (.str "classification_failed") ∧
      st'.get? "error" = some (.str "LLM Error: boom") := by
  obtain ⟨-, h2, -, -, hfields, -⟩ :=
    C2_classification_failure (fun _ => .err "boom")
      (initial_state "i" "a@b.c" "S" "B") (.str "S") (.str "a@b.c") (.str "B") rfl rfl rfl
  obtain ⟨e, heq, -, -, hne⟩ := h2 "boom" rfl
  have he : e = "LLM Error: boom" := hne (by decide)
  subst he
  obtain ⟨g1, g2, g3, g4⟩ := hfields (initial_state "i" "a@b.c" "S" "B") "LLM Error: boom"
  exact ⟨_, heq, g1, g2, g3, g4⟩

/-- C6 (amended): classification stores the parsed `confidence` value
verbatim — no clamping happens — so `confidence_score` is only in `[0,1]`
when the Completion Service returns an in-range value; the failure path
stores `0.0`. -/
theorem C6_confidence_verbatim (llm : LLM) (st : Dict) (vS vF vB : Json)
    (hS : st.get? "email_subject" = some vS)
    (hF : st.get? "email_from" = some vF)
    (hB : st.get? "email_body" = some vB) :
    (∀ s kvs v c, llm (classify_prompt (pyStr vS) (pyStr vF) (pyStr vB)) = .ok s →
      json_loads (clean_json s) = some (.obj kvs) →
      assocGet kvs "is_valid" = some v → assocGet kvs "confidence" = some c →
      classify_email llm st =
        .ok (classifyOk st v c ((assocGet kvs "reason").getD (.str "No reason provided"))) ∧
      (∀ r, (classifyOk st v c r).get? "confidence_score" = some c)) ∧
    (∀ m, llm (classify_prompt (pyStr vS) (pyStr vF) (pyStr vB)) = .err m →
      ∃ e, classify_email llm st = .ok (classifyFail st e) ∧
        (classifyFail st e).get? "confidence_score" = some (.num 0)) := by
  constructor
  · intro s kvs v c hl hp hv hc
    constructor
    · unfold classify_email
      rw [hS, hF, hB]
      simp only
      rw [hl]
      simp only [classify_core, hp, hv, hc]
    · intro r
      simp [classifyOk, get?_updateL, revLookup]
  · intro m hl
    refine ⟨if m = "" then "Empty response from LLM" else "LLM Error: " ++ m, ?_, ?_⟩
    · unfold classify_email
      rw [hS, hF, hB]
      simp only
      rw [hl]
      rfl
    · simp [classifyFail, get?_updateL, revLookup]

/-- Counterexample to C6 as stated: a completion carrying
`"confidence": 1.5` is merged as-is, so the classification stage
completes successfully with `confidence_score = 1.5 ∉ [0,1]`. -/
theorem C6_counterexample :
    (classify_email
        (fun _ => .ok "\x7b\"is_valid\": true, \"confidence\": 1.5, \"reason\": \"r\"\x7d")
        (initial_state "i" "a@b.c" "S" "B")).map
      (fun d => (d.get? "confidence_score", d.get? "current_step")) =
      .ok (some (.num (mkRat 3 2)), some (.str "classified")) ∧
    ¬((mkRat 3 2 : ℚ) ≤ 1) := by
  constructor
  · rfl
  · rw [mkRat_3_2]
    norm_num

/-- Witness for the amended C6: an in-try success with `confidence` 0.7 is
stored verbatim. -/
theorem C6_confidence_verbatim_witness :
    classify_email
        (fun _ => .ok "\x7b\"is_valid\": true, \"confidence\": 0.7\x7d")
        (initial_state "i" "a@b.c" "S" "B") =
      .ok (classifyOk (initial_state "i" "a@b.c" "S" "B") (.bool true) (.num (mkRat 7 10))
        (.str "No reason provided")) ∧
    (classifyOk (initial_state "i" "a@b.c" "S" "B") (.bool true) (.num (mkRat 7 10))
        (.str "No reason provided")).get? "confidence_score" = some (.num (mkRat 7 10)) := by
  obtain ⟨hok, -⟩ :=
    C6_confidence_verbatim
      (fun _ => .ok "\x7b\"is_valid\": true, \"confidence\": 0.7\x7d")
      (initial_state "i" "a@b.c" "S" "B") (.str "S") (.str "a@b.c") (.str "B") rfl rfl rfl
  obtain ⟨heq, hget⟩ := hok "\x7b\"is_valid\": true, \"confidence\": 0.7\x7d"
    [("is_valid", .bool true), ("confidence", .num (mkRat 7 10))] (.bool true)
    (.num (mkRat 7 10)) rfl rfl rfl rfl
  exact ⟨heq, hget (.str "No reason provided")⟩

/-- Any successful extraction whose state is marked
`extraction_fallback` is exactly the fallback update, and the sender
field was an actual string. -/
theorem extract_fallback_shape (llm : LLM) (st st' : Dict)
    (hrun : extract_requirements llm st = .ok st')
    (hstep : st'.get? "current_step" = some (.str "extraction_fallback")) :
    ∃ ef e, st.get? "email_from" = some (.str ef) ∧ st' = extractFallback st ef e := by
  unfold extract_requirements at hrun
  cases hF : st.get? "email_from" with
  | none => rw [hF] at hrun; cases hrun
  | some vF =>
    rw [hF] at hrun
    cases hS : st.get? "email_subject" with
    | none => rw [hS] at hrun; cases hrun
    | some vS =>
      rw [hS] at hrun
      cases hB : st.get? "email_body" with
      | none => rw [hB] at hrun; cases hrun
      | some vB =>
        rw [hB] at hrun
        simp only at hrun
        generalize llm (extract_prompt (pyStr vF) (pyStr vS) (pyStr vB)) = r at hrun
        cases r with
        | err m =>
          simp only [extract_core] at hrun
          cases vF with
          | str ef => exact ⟨ef, m, rfl, (Except.ok.inj hrun).symm⟩
          | null => cases hrun
          | bool b => cases hrun
          | num q => cases hrun
          | arr l => cases hrun
          | obj kvs => cases hrun
        | ok s =>
          simp only [extract_core] at hrun
          cases hp : json_loads (clean_json s) with
          | none =>
            rw [hp] at hrun
            simp only at hrun
            cases vF with
            | str ef => exact ⟨ef, jsonDecodeMsg, rfl, (Except.ok.inj hrun).symm⟩
            | null => cases hrun
            | bool b => cases hrun
            | num q => cases hrun
            | arr l => cases hrun
            | obj kvs => cases hrun
          | some j =>
            rw [hp] at hrun
            cases j with
            | obj kvs =>
              simp only at hrun
              exfalso
              have hst' := (Except.ok.inj hrun)
              rw [← hst'] at hstep
              rw [get?_updateL, revLookup_append] at hstep
              simp [revLookup] at hstep
            | null =>
              simp only at hrun
              cases vF with
              | str ef => exact ⟨ef, notMappingMsg, rfl, (Except.ok.inj hrun).symm⟩
              | null => cases hrun
              | bool b => cases hrun
              | num q => cases hrun
              | arr l => cases hrun
              | obj kvs => cases hrun
            | bool b =>
              simp only at hrun
              cases vF with
              | str ef => exact ⟨ef, notMappingMsg, rfl, (Except.ok.inj hrun).symm⟩
              | null => cases hrun
              | bool b2 => cases hrun
              | num q => cases hrun
              | arr l => cases hrun
              | obj kvs => cases hrun
            | num q =>
              simp only at hrun
              cases vF with
              | str ef => exact ⟨ef, notMappingMsg, rfl, (Except.ok.inj hrun).symm⟩
              | null => cases hrun
              | bool b => cases hrun
              | num q2 => cases hrun
              | arr l => cases hrun
              | obj kvs => cases hrun
            | str s2 =>
              simp only at hrun
              cases vF with
              | str ef => exact ⟨ef, notMappingMsg, rfl, (Except.ok.inj hrun).symm⟩
              | null => cases hrun
              | bool b => cases hrun
              | num q => cases hrun
              | arr l => cases hrun
              | obj kvs => cases hrun
            | arr l =>
              simp only at hrun
              cases vF with
              | str ef => exact ⟨ef, notMappingMsg, rfl, (Except.ok.inj hrun).symm⟩
              | null => cases hrun
              | bool b => cases hrun
              | num q => cases hrun
              | arr l2 => cases hrun
              | obj kvs => cases hrun

/-- C5 (amended): extraction fully populates all six fields whenever the
call fails, the completion is unparsable, or it parses to a non-object
(fallback path), and whenever the parsed object itself carries the keys
(merged verbatim); a valid JSON object lacking some of the six keys is
merged as-is, updating only the keys it carries (see the counterexample
for the partial merge the claim rules out). -/
theorem C5_extraction_population (llm : LLM) (st : Dict) (vS vB : Json) (ef : String)
    (hF : st.get? "email_from" = some (.str ef))
    (hS : st.get? "email_subject" = some vS)
    (hB : st.get? "email_body" = some vB) :
    (∀ m, llm (extract_prompt (pyStr (.str ef)) (pyStr vS) (pyStr vB)) = .err m →
      extract_requirements llm st = .ok (extractFallback st ef m)) ∧
    (∀ s, llm (extract_prompt (pyStr (.str ef)) (pyStr vS) (pyStr vB)) = .ok s →
      json_loads (clean_json s) = none →
      extract_requirements llm st = .ok (extractFallback st ef jsonDecodeMsg)) ∧
    (∀ s j, llm (extract_prompt (pyStr (.str ef)) (pyStr vS) (pyStr vB)) = .ok s →
      json_loads (clean_json s) = some j → (∀ kvs, j ≠ .obj kvs) →
      extract_requirements llm st = .ok (extractFallback st ef notMappingMsg)) ∧
    (∀ e, (extractFallback st ef e).get? "client_name" =
        some (.str (fallback_client_name ef)) ∧
      (extractFallback st ef e).get? "company" = some .null ∧
      (extractFallback st ef e).get? "project_type" =
        some (st.getD "email_subject" (.str "Custom Project")) ∧
      (extractFallback st ef e).get? "requirements" =
        some (.arr [.str "Discuss detailed requirements"]) ∧
      (extractFallback st ef e).get? "timeline" = some (.str "To be determined") ∧
      (extractFallback st ef e).get? "budget" = some (.str "Flexible")) ∧
    (∀ s kvs, llm (extract_prompt (pyStr (.str ef)) (pyStr vS) (pyStr vB)) = .ok s →
      json_loads (clean_json s) = some (.obj kvs) →
      extract_requirements llm st =
        .ok (st.updateL (kvs ++ [("current_step", .str "extracted")])) ∧
      (∀ k v, k ≠ "current_step" → revLookup kvs k = some v →
        (st.updateL (kvs ++ [("current_step", .str "extracted")])).get? k = some v)) := by
  refine ⟨?_, ?_, ?_, ?_, ?_⟩
  · intro m hl
    unfold extract_requirements
    rw [hF, hS, hB]
    simp only
    rw [hl]
    rfl
  · intro s hl hp
    unfold extract_requirements
    rw [hF, hS, hB]
    simp only
    rw [hl]
    simp only [extract_core]
    rw [hp]
  · intro s j hl hp hobj
    unfold extract_requirements
    rw [hF, hS, hB]
    simp only
    rw [hl]
    simp only [extract_core]
    rw [hp]
    cases j with
    | obj kvs => exact absurd rfl (hobj kvs)
    | null => rfl
    | bool b => rfl
    | num q => rfl
    | str s2 => rfl
    | arr l => rfl
  · intro e
    obtain ⟨f1, f2, f3, f4, f5, f6, -, -⟩ := extractFallback_fields st ef e
    exact ⟨f1, f2, f3, f4, f5, f6⟩
  · intro s kvs hl hp
    constructor
    · unfold extract_requirements
      rw [hF, hS, hB]
      simp only
      rw [hl]
      simp only [extract_core]
      rw [hp]
    · intro k v hk hkv
      rw [get?_updateL, revLookup_append]
      simp [revLookup, hk, hkv]

/-- Witness for the amended C5: a failed extraction call on a concrete
state populates all six fields via the fallback. -/
theorem C5_extraction_population_witness :
    extract_requirements (fun _ => .err "down")
        [("email_from", Json.str "a@b.c"), ("email_subject", Json.str "Site"),
         ("email_body", Json.str "B")] =
      .ok (extractFallback
        [("email_from", Json.str "a@b.c"), ("email_subject", Json.str "Site"),
         ("email_body", Json.str "B")] "a@b.c" "down") ∧
    (extractFallback
        [("email_from", Json.str "a@b.c"), ("email_subject", Json.str "Site"),
         ("email_body", Json.str "B")] "a@b.c" "down").get? "company" = some .null := by
  obtain ⟨h1, -, -, h4, -⟩ :=
    C5_extraction_population (fun _ => .err "down")
      [("email_from", Json.str "a@b.c"), ("email_subject", Json.str "Site"),
       ("email_body", Json.str "B")] (.str "Site") (.str "B") "a@b.c" rfl rfl rfl
  exact ⟨h1 "down" rfl, (h4 "down").2.1⟩

/-- Counterexample to C5 as stated: the valid-JSON completion
`{"client_name": "X"}` lacking the other five keys is merged as-is —
the stage completes with `current_step="extracted"` while `company` and
`timeline` remain unset. -/
theorem C5_counterexample :
    (extract_requirements (fun _ => .ok "\x7b\"client_name\": \"X\"\x7d")
        (initial_state "i" "a@b.c" "S" "B")).map
      (fun d => (d.get? "company", d.get? "timeline", d.get? "current_step",
        d.get? "client_name")) =
      .ok (none, none, some (.str "extracted"), some (.str "X")) := rfl

/-- A successful classification is exactly the core update for the
invoke outcome at the built prompt. -/
theorem classify_shape (llm : LLM) (st st' : Dict)
    (h : classify_email llm st = .ok st') : ∃ r, st' = classify_core st r := by
  unfold classify_email at h
  cases hS : st.get? "email_subject" with
  | none => rw [hS] at h; cases h
  | some vS =>
    rw [hS] at h
    cases hF : st.get? "email_from" with
    | none => rw [hF] at h; cases h
    | some vF =>
      rw [hF] at h
      cases hB : st.get? "email_body" with
      | none => rw [hB] at h; cases h
      | some vB =>
        rw [hB] at h
        simp only at h
        exact ⟨_, (Except.ok.inj h).symm⟩

/-- The classification update never touches keys outside its five own
fields. -/
theorem classify_core_preserves (st : Dict) (r : LLMResult) (k : String)
    (h1 : k ≠ "is_valid_inquiry") (h2 : k ≠ "confidence_score")
    (h3 : k ≠ "classification_reason") (h4 : k ≠ "current_step") (h5 : k ≠ "error") :
    (classify_core st r).get? k = st.get? k := by
  have hfail : ∀ e, (classifyFail st e).get? k = st.get? k := fun e => by
    simp [classifyFail, get?_updateL, revLookup, h1, h2, h4, h5]
  have hok : ∀ v c rr, (classifyOk st v c rr).get? k = st.get? k := fun v c rr => by
    simp [classifyOk, get?_updateL, revLookup, h1, h2, h3, h4]
  cases r with
  | err m => exact hfail _
  | ok s =>
    simp only [classify_core]
    cases json_loads (clean_json s) with
    | none => exact hfail _
    | some j =>
      cases j with
      | obj kvs =>
        simp only
        cases assocGet kvs "is_valid" with
        | none => exact hfail _
        | some v =>
          cases assocGet kvs "confidence" with
          | none => exact hfail _
          | some c => exact hok _ _ _
      | null => exact hfail _
      | bool b => exact hfail _
      | num q => exact hfail _
      | str s2 => exact hfail _
      | arr l => exact hfail _

/-- The planning stage only writes `project_plan` and `current_step`. -/
theorem plan_core_preserves (st : Dict) (vPT : Json) (r : LLMResult) (st' : Dict)
    (k : String) (h1 : k ≠ "project_plan") (h2 : k ≠ "current_step")
    (h : plan_core st vPT r = .ok st') : st'.get? k = st.get? k := by
  have hgen : ∀ j : Json,
      ((st.insert "project_plan" j).insert "current_step" (Json.str "planned")).get? k =
        st.get? k := fun j => by
    rw [get?_insert, get?_insert]
    simp [h1, h2]
  have hgen2 : ∀ j : Json,
      ((st.insert "project_plan" j).insert "current_step"
        (Json.str "planned_fallback")).get? k = st.get? k := fun j => by
    rw [get?_insert, get?_insert]
    simp [h1, h2]
  cases r with
  | err m =>
    simp only [plan_core] at h
    cases vPT with
    | str pt => rw [← Except.ok.inj h]; exact hgen2 _
    | null => cases h
    | bool b => cases h
    | num q => cases h
    | arr l => cases h
    | obj kvs => cases h
  | ok s =>
    simp only [plan_core] at h
    cases hjl : json_loads (clean_json s) with
    | some j =>
      rw [hjl] at h
      rw [← Except.ok.inj h]
      exact hgen _
    | none =>
      rw [hjl] at h
      cases vPT with
      | str pt => rw [← Except.ok.inj h]; exact hgen2 _
      | null => cases h
      | bool b => cases h
      | num q => cases h
      | arr l => cases h
      | obj kvs => cases h

/-- The cost node only writes `cost_estimate` and `current_step`. -/
theorem cost_node_preserves (rate : ℚ) (st st' : Dict) (k : String)
    (h1 : k ≠ "cost_estimate") (h2 : k ≠ "current_step")
    (h : calculate_cost_node rate st = .ok st') : st'.get? k = st.get? k := by
  unfold calculate_cost_node at h
  cases hpp : st.get? "project_plan" with
  | none => rw [hpp] at h; cases h
  | some pp =>
    rw [hpp] at h
    simp only at h
    cases hjs : jSub pp "total_estimated_hours" with
    | error e => rw [hjs] at h; cases h
    | ok hv =>
      rw [hjs] at h
      cases hjc : jSub pp "complexity" with
      | error e => rw [hjc] at h; cases h
      | ok cv =>
        rw [hjc] at h
        simp only at h
        cases hv with
        | num q =>
          cases cv with
          | str c =>
            rw [← Except.ok.inj h, get?_insert, get?_insert]
            simp [h1, h2]
          | null => cases h
          | bool b => cases h
          | num q2 => cases h
          | arr l => cases h
          | obj kvs => cases h
        | null => cases h
        | bool b => cases h
        | str s => cases h
        | arr l => cases h
        | obj kvs => cases h

/-- The proposal stage only writes `proposal_text` and `current_step`. -/
theorem proposal_core_preserves (st : Dict) (pd : PropData) (r : LLMResult) (st' : Dict)
    (k : String) (h1 : k ≠ "proposal_text") (h2 : k ≠ "current_step")
    (h : proposal_core st pd r = .ok st') : st'.get? k = st.get? k := by
  have hgen : ∀ (t step : String),
      ((st.insert "proposal_text" (Json.str t)).insert "current_step"
        (Json.str step)).get? k = st.get? k := fun t step => by
    rw [get?_insert, get?_insert]
    simp [h1, h2]
  cases r with
  | ok s =>
    simp only [proposal_core] at h
    rw [← Except.ok.inj h]
    exact hgen _ _
  | err m =>
    simp only [proposal_core] at h
    cases hrq : st.get? "requirements" with
    | none => rw [hrq] at h; cases h
    | some reqv =>
      rw [hrq] at h
      simp only at h
      cases hfr : first_requirement reqv with
      | error e => rw [hfr] at h; cases h
      | ok fr =>
        rw [hfr] at h
        simp only at h
        cases hcx : pd.cx with
        | str cxs => rw [hcx] at h; rw [← Except.ok.inj h]; exact hgen _ _
        | null => rw [hcx] at h; cases h
        | bool b => rw [hcx] at h; cases h
        | num q => rw [hcx] at h; cases h
        | arr l => rw [hcx] at h; cases h
        | obj kvs => rw [hcx] at h; cases h

/-- C10 (amended): the four email identity fields are preserved by the
classification, planning, cost, proposal, storage, draft and notification
stages, and by extraction whenever it takes its fallback; extraction's
success path merges the parsed object verbatim, so the identity fields
are preserved exactly when the object does not bind them (see the
counterexample for the overwrite the claim rules out). -/
theorem C10_identity_frame :
    (∀ llm st st' k, k ∈ identity_keys → classify_email llm st = .ok st' →
      st'.get? k = st.get? k) ∧
    (∀ llm st st' k, k ∈ identity_keys → generate_plan llm st = .ok st' →
      st'.get? k = st.get? k) ∧
    (∀ rate st st' k, k ∈ identity_keys → calculate_cost_node rate st = .ok st' →
      st'.get? k = st.get? k) ∧
    (∀ llm st st' k, k ∈ identity_keys → generate_proposal llm st = .ok st' →
      st'.get? k = st.get? k) ∧
    (∀ st st' k, k ∈ identity_keys → store_in_database st = .ok st' →
      st'.get? k = st.get? k) ∧
    (∀ st st' k, k ∈ identity_keys → create_email_draft st = .ok st' →
      st'.get? k = st.get? k) ∧
    (∀ st st' k, k ∈ identity_keys → send_notification st = .ok st' →
      st'.get? k = st.get? k) ∧
    (∀ llm st st' k, k ∈ identity_keys → extract_requirements llm st = .ok st' →
      st'.get? "current_step" = some (.str "extraction_fallback") →
      st'.get? k = st.get? k) ∧
    (∀ (st : Dict) kvs k, k ∈ identity_keys → revLookup kvs k = none →
      (st.updateL (kvs ++ [("current_step", Json.str "extracted")])).get? k =
        st.get? k) := by
  have hid : ∀ k, k ∈ identity_keys →
      k = "email_id" ∨ k = "email_from" ∨ k = "email_subject" ∨ k = "email_body" :=
    fun k hk => by simpa [identity_keys] using hk
  refine ⟨?_, ?_, ?_, ?_, ?_, ?_, ?_, ?_, ?_⟩
  · intro llm st st' k hk h
    obtain ⟨r, hr⟩ := classify_shape llm st st' h
    subst hr
    rcases hid k hk with h' | h' | h' | h' <;> subst h' <;>
      exact classify_core_preserves _ _ _ (by decide) (by decide) (by decide)
        (by decide) (by decide)
  · intro llm st st' k hk h
    unfold generate_plan at h
    cases hj : joinPy ", " (st.getD "requirements" (.arr [])) with
    | error e => rw [hj] at h; cases h
    | ok reqs =>
      rw [hj] at h
      cases hpt : st.get? "project_type" with
      | none => rw [hpt] at h; cases h
      | some vPT =>
        rw [hpt] at h
        cases hcn : st.get? "client_name" with
        | none => rw [hcn] at h; cases h
        | some vCN =>
          rw [hcn] at h
          simp only at h
          rcases hid k hk with h' | h' | h' | h' <;> subst h' <;>
            exact plan_core_preserves _ _ _ _ _ (by decide) (by decide) h
  · intro rate st st' k hk h
    rcases hid k hk with h' | h' | h' | h' <;> subst h' <;>
      exact cost_node_preserves _ _ _ _ (by decide) (by decide) h
  · intro llm st st' k hk h
    unfold generate_proposal at h
    cases hpi : proposal_inputs st with
    | error e => rw [hpi] at h; cases h
    | ok pd =>
      rw [hpi] at h
      simp only at h
      rcases hid k hk with h' | h' | h' | h' <;> subst h' <;>
        exact proposal_core_preserves _ _ _ _ _ (by decide) (by decide) h
  · intro st st' k hk h
    have hst : st' = st.updateL [("client_id", .str "client-id"),
        ("proposal_id", .str "proposal-id"), ("current_step", .str "stored")] :=
      (Except.ok.inj h).symm
    subst hst
    rcases hid k hk with h' | h' | h' | h' <;> subst h' <;>
      simp [get?_updateL, revLookup]
  · intro st st' k hk h
    have hst : st' = st.updateL [("needs_human_review", .bool true),
        ("current_step", .str "draft_created")] := (Except.ok.inj h).symm
    subst hst
    rcases hid k hk with h' | h' | h' | h' <;> subst h' <;>
      simp [get?_updateL, revLookup]
  · intro st st' k hk h
    have hst : st' = st.insert "current_step" (.str "notified") :=
      (Except.ok.inj h).symm
    subst hst
    rcases hid k hk with h' | h' | h' | h' <;> subst h' <;> simp [get?_insert]
  · intro llm st st' k hk h hstep
    obtain ⟨ef, e, -, hst⟩ := extract_fallback_shape llm st st' h hstep
    subst hst
    rcases hid k hk with h' | h' | h' | h' <;> subst h' <;>
      simp [extractFallback, get?_updateL, revLookup]
  · intro st kvs k hk hnone
    rw [get?_updateL, revLookup_append, hnone]
    rcases hid k hk with h' | h' | h' | h' <;> subst h' <;> simp [revLookup]

/-- Witness for the amended C10: classification on a concrete state with a
failing call leaves `email_from` untouched. -/
theorem C10_identity_frame_witness :
    classify_email (fun _ => .err "x") (initial_state "i" "sender@example.com" "S" "B") =
      .ok (classifyFail (initial_state "i" "sender@example.com" "S" "B") "LLM Error: x") ∧
    (classifyFail (initial_state "i" "sender@example.com" "S" "B") "LLM Error: x").get?
        "email_from" =
      (initial_state "i" "sender@example.com" "S" "B").get? "email_from" := by
  constructor
  · rfl
  · exact C10_identity_frame.1 (fun _ => .err "x")
      (initial_state "i" "sender@example.com" "S" "B")
      (classifyFail (initial_state "i" "sender@example.com" "S" "B") "LLM Error: x")
      "email_from" (by simp [identity_keys]) rfl

/-- Counterexample to C10 as stated: an extraction completion carrying an
`email_from` key overwrites the identity field on the success path. -/
theorem C10_counterexample :
    (extract_requirements (fun _ => .ok "\x7b\"email_from\": \"evil@x\"\x7d")
        (initial_state "i" "sender@example.com" "S" "B")).map
      (fun d => d.get? "email_from") = .ok (some (.str "evil@x")) ∧
    (initial_state "i" "sender@example.com" "S" "B").get? "email_from" =
      some (.str "sender@example.com") ∧
    ("evil@x" : String) ≠ "sender@example.com" := by
  refine ⟨rfl, rfl, by decide⟩

/-- C4: When classification leaves `is_valid_inquiry` falsy, the router
terminates immediately after the classify node — the run's result is the
post-classification state itself — and `project_plan`, `cost_estimate`
and `proposal_text` remain at their initialization defaults (absent from
the router's initial state). -/
theorem C4_branch_a_early_exit (rate : ℚ) (llm : LLM) (id sender subject body : String)
    (st1 : Dict) (v : Json)
    (hrun : classify_email llm (initial_state id sender subject body) = .ok st1)
    (hv : st1.get? "is_valid_inquiry" = some v)
    (hfalse : truthy v = false) :
    runPipeline rate llm (initial_state id sender subject body) = .ok st1 ∧
    st1.get? "project_plan" = none ∧
    st1.get? "cost_estimate" = none ∧
    st1.get? "proposal_text" = none := by
  obtain ⟨r, hr⟩ := classify_shape llm _ st1 hrun
  refine ⟨?_, ?_, ?_, ?_⟩
  · unfold runPipeline
    rw [hrun]
    simp only
    rw [hv]
    simp [hfalse]
  · rw [hr, classify_core_preserves _ _ _ (by decide) (by decide) (by decide) (by decide)
      (by decide)]
    rfl
  · rw [hr, classify_core_preserves _ _ _ (by decide) (by decide) (by decide) (by decide)
      (by decide)]
    rfl
  · rw [hr, classify_core_preserves _ _ _ (by decide) (by decide) (by decide) (by decide)
      (by decide)]
    rfl

/-- Witness for C4: a failing classification call on a concrete initial
state terminates the run at the classify node. -/
theorem C4_branch_a_early_exit_witness :
    runPipeline 1 (fun _ => .err "down") (initial_state "i" "f@x" "S" "B") =
      .ok (classifyFail (initial_state "i" "f@x" "S" "B") "LLM Error: down") ∧
    (classifyFail (initial_state "i" "f@x" "S" "B") "LLM Error: down").get?
      "project_plan" = none ∧
    (classifyFail (initial_state "i" "f@x" "S" "B") "LLM Error: down").get?
      "cost_estimate" = none ∧
    (classifyFail (initial_state "i" "f@x" "S" "B") "LLM Error: down").get?
      "proposal_text" = none :=
  C4_branch_a_early_exit 1 (fun _ => .err "down") "i" "f@x" "S" "B"
    (classifyFail (initial_state "i" "f@x" "S" "B") "LLM Error: down")
    (.bool false) rfl rfl rfl

/-- C3 (amended): when the underlying Gemini API call raises on a
classification prompt that does not itself contain the substring
`"Extract structured information"` (the wrapper checks the extraction
marker first), `GeminiService.invoke` swallows the exception and returns
the literal fallback JSON, so the classification stage completes
positively with `is_valid_inquiry = true`, `confidence_score = 0.5`,
`classification_reason = "Fallback: Gemini API Error"` and
`current_step = "classified"` instead of its failure fallback. -/
theorem C3_gemini_classification_fallback (api : LLM) (st : Dict) (vS vF vB : Json)
    (e : String)
    (hS : st.get? "email_subject" = some vS)
    (hF : st.get? "email_from" = some vF)
    (hB : st.get? "email_body" = some vB)
    (hapi : api (classify_prompt (pyStr vS) (pyStr vF) (pyStr vB)) = .err e)
    (hnm : strContains (classify_prompt (pyStr vS) (pyStr vF) (pyStr vB))
      "Extract structured information" = false) :
    gemini_invoke api (classify_prompt (pyStr vS) (pyStr vF) (pyStr vB)) =
      .ok gemini_classify_fallback ∧
    classify_email (gemini_invoke api) st =
      .ok (classifyOk st (.bool true) (.num (mkRat 1 2))
        (.str "Fallback: Gemini API Error")) ∧
    (classifyOk st (.bool true) (.num (mkRat 1 2))
        (.str "Fallback: Gemini API Error")).get? "is_valid_inquiry" =
      some (.bool true) ∧
    (classifyOk st (.bool true) (.num (mkRat 1 2))
        (.str "Fallback: Gemini API Error")).get? "confidence_score" =
      some (.num (mkRat 1 2)) ∧
    (classifyOk st (.bool true) (.num (mkRat 1 2))
        (.str "Fallback: Gemini API Error")).get? "current_step" =
      some (.str "classified") := by
  have hg : gemini_invoke api (classify_prompt (pyStr vS) (pyStr vF) (pyStr vB)) =
      .ok gemini_classify_fallback := by
    unfold gemini_invoke
    rw [hapi]
    simp [hnm, classify_prompt_has_marker]
  refine ⟨hg, ?_, ?_, ?_, ?_⟩
  · unfold classify_email
    rw [hS, hF, hB]
    simp only
    rw [hg]
    rfl
  · simp [classifyOk, get?_updateL, revLookup]
  · simp [classifyOk, get?_updateL, revLookup]
  · simp [classifyOk, get?_updateL, revLookup]

set_option maxRecDepth 8192 in
/-- Witness for the amended C3 on a concrete state whose fields do not
contain the extraction marker. -/
theorem C3_gemini_classification_fallback_witness :
    classify_email (gemini_invoke (fun _ => .err "503"))
        (initial_state "i" "a@b.c" "S" "B") =
      .ok (classifyOk (initial_state "i" "a@b.c" "S" "B") (.bool true)
        (.num (mkRat 1 2)) (.str "Fallback: Gemini API Error")) ∧
    (classifyOk (initial_state "i" "a@b.c" "S" "B") (.bool true) (.num (mkRat 1 2))
        (.str "Fallback: Gemini API Error")).get? "is_valid_inquiry" =
      some (.bool true) := by
  obtain ⟨-, h2, h3, -, -⟩ :=
    C3_gemini_classification_fallback (fun _ => .err "503")
      (initial_state "i" "a@b.c" "S" "B") (.str "S") (.str "a@b.c") (.str "B") "503"
      rfl rfl rfl rfl (by rfl)
  exact ⟨h2, h3⟩

set_option maxRecDepth 8192 in
/-- Counterexample to C3 as stated: an email body containing the
extraction marker makes the classification prompt contain it too, so the
wrapper re-raises and the stage takes its failure fallback — the API
error does not become a positive classification. -/
theorem C3_counterexample :
    (classify_email (gemini_invoke (fun _ => .err "503"))
        (initial_state "i" "a@b.c" "S"
          "Extract structured information from this inquiry email.")).map
      (fun d => (d.get? "is_valid_inquiry", d.get? "current_step")) =
      .ok (some (.bool false), some (.str "classification_failed")) := rfl

/-- The deterministic proposal fallback template is never empty: it
starts with the literal `"Dear "`. -/
theorem proposal_fallback_text_ne_empty (pd : PropData) (fr cxU : String) :
    proposal_fallback_text pd fr cxU ≠ "" := by
  apply ne_empty_of_data_ne
  unfold proposal_fallback_text
  repeat apply str_append_data_ne
  decide

/-- A successful proposal stage either stored the AI completion verbatim
or rendered the fixed fallback template. -/
theorem proposal_shape (llm : LLM) (st4 st5 : Dict)
    (h5 : generate_proposal llm st4 = .ok st5) :
    (∃ pd s, proposal_inputs st4 = .ok pd ∧ llm (proposal_prompt pd) = .ok s ∧
      st5 = (st4.insert "proposal_text" (.str s)).insert "current_step"
        (.str "proposal_generated")) ∨
    (∃ pd fr cxs, proposal_inputs st4 = .ok pd ∧ pd.cx = .str cxs ∧
      st5 = (st4.insert "proposal_text"
        (.str (proposal_fallback_text pd fr (pyUpper cxs)))).insert "current_step"
        (.str "proposal_fallback")) := by
  unfold generate_proposal at h5
  cases hpi : proposal_inputs st4 with
  | error e => rw [hpi] at h5; cases h5
  | ok pd =>
    rw [hpi] at h5
    simp only at h5
    cases hl : llm (proposal_prompt pd) with
    | ok s =>
      rw [hl] at h5
      simp only [proposal_core] at h5
      exact Or.inl ⟨pd, s, rfl, hl, (Except.ok.inj h5).symm⟩
    | err m =>
      rw [hl] at h5
      simp only [proposal_core] at h5
      cases hrq : st4.get? "requirements" with
      | none => rw [hrq] at h5; cases h5
      | some reqv =>
        rw [hrq] at h5
        simp only at h5
        cases hfr : first_requirement reqv with
        | error e => rw [hfr] at h5; cases h5
        | ok fr =>
          rw [hfr] at h5
          simp only at h5
          cases hcx : pd.cx with
          | str cxs =>
            rw [hcx] at h5
            exact Or.inr ⟨pd, fr, cxs, rfl, hcx, (Except.ok.inj h5).symm⟩
          | null => rw [hcx] at h5; cases h5
          | bool b => rw [hcx] at h5; cases h5
          | num q => rw [hcx] at h5; cases h5
          | arr l => rw [hcx] at h5; cases h5
          | obj kvs => rw [hcx] at h5; cases h5

/-- C1 (amended): in every run where classification set
`is_valid_inquiry` to true and the extraction, planning, cost and
proposal stages each returned (as the all-fallback path always does),
the proposal stage stored either the AI completion verbatim or the
deterministic fallback template; the run then completes, carrying the
proposal text to the final state, and on the proposal-fallback path the
text is the non-empty template — so only a successful-but-empty
completion can leave `proposal_text` empty (see the counterexample). -/
theorem C1_proposal_nonempty (rate : ℚ) (llm : LLM) (id sender subject body : String)
    (st1 st2 st3 st4 st5 : Dict)
    (h1 : classify_email llm (initial_state id sender subject body) = .ok st1)
    (hv : st1.get? "is_valid_inquiry" = some (.bool true))
    (h2 : extract_requirements llm st1 = .ok st2)
    (h3 : generate_plan llm st2 = .ok st3)
    (h4 : calculate_cost_node rate st3 = .ok st4)
    (h5 : generate_proposal llm st4 = .ok st5) :
    (∃ t, st5.get? "proposal_text" = some (.str t) ∧
      ((∃ pd, proposal_inputs st4 = .ok pd ∧ llm (proposal_prompt pd) = .ok t) ∨
        t ≠ "")) ∧
    (∃ sf, runPipeline rate llm (initial_state id sender subject body) = .ok sf ∧
      sf.get? "proposal_text" = st5.get? "proposal_text") ∧
    (st5.get? "current_step" = some (.str "proposal_fallback") →
      ∃ t, st5.get? "proposal_text" = some (.str t) ∧ t ≠ "") := by
  have hshape := proposal_shape llm st4 st5 h5
  have hget : ∀ (d : Dict) (t step : String),
      ((d.insert "proposal_text" (.str t)).insert "current_step"
        (.str step)).get? "proposal_text" = some (.str t) := fun d t step => by
    rw [get?_insert, get?_insert]
    simp
  have hstep : ∀ (d : Dict) (t step : String),
      ((d.insert "proposal_text" (.str t)).insert "current_step"
        (.str step)).get? "current_step" = some (.str step) := fun d t step => by
    rw [get?_insert]
    simp
  refine ⟨?_, ?_, ?_⟩
  · rcases hshape with ⟨pd, s, hpi, hl, hst⟩ | ⟨pd, fr, cxs, hpi, hcx, hst⟩
    · subst hst
      exact ⟨s, hget _ _ _, Or.inl ⟨pd, hpi, hl⟩⟩
    · subst hst
      exact ⟨_, hget _ _ _, Or.inr (proposal_fallback_text_ne_empty pd fr (pyUpper cxs))⟩
  · have hneed : ∀ (d : Dict),
        ((d.updateL [("client_id", Json.str "client-id"),
          ("proposal_id", Json.str "proposal-id"),
          ("current_step", Json.str "stored")]).updateL
          [("needs_human_review", Json.bool true),
           ("current_step", Json.str "draft_created")]).get? "needs_human_review" =
        some (.bool true) := fun d => by
      simp [get?_updateL, revLookup]
    have hpres : ∀ (d : Dict),
        (((d.updateL [("client_id", Json.str "client-id"),
          ("proposal_id", Json.str "proposal-id"),
          ("current_step", Json.str "stored")]).updateL
          [("needs_human_review", Json.bool true),
           ("current_step", Json.str "draft_created")]).insert "current_step"
          (.str "notified")).get? "proposal_text" = d.get? "proposal_text" := fun d => by
      simp [get?_insert, get?_updateL, revLookup]
    refine ⟨_, ?_, hpres st5⟩
    unfold runPipeline
    rw [h1]
    simp only
    rw [hv]
    simp only [truthy, if_true]
    rw [h2]
    simp only
    rw [h3]
    simp only
    rw [h4]
    simp only
    rw [h5]
    simp only [store_in_database, create_email_draft]
    rw [hneed st5]
    simp only [truthy, if_true]
    rfl
  · intro hfb
    rcases hshape with ⟨pd, s, hpi, hl, hst⟩ | ⟨pd, fr, cxs, hpi, hcx, hst⟩
    · exfalso
      subst hst
      rw [hstep] at hfb
      have := Json.str.inj (Option.some.inj hfb)
      exact absurd this (by decide)
    · subst hst
      exact ⟨_, hget _ _ _, proposal_fallback_text_ne_empty pd fr (pyUpper cxs)⟩

set_option maxRecDepth 8192 in
/-- Witness for the amended C1: the full-fallback run — classification
succeeds positively, every later AI call fails — completes with the
non-empty fallback proposal. -/
theorem C1_proposal_nonempty_witness :
    ∃ sf t, runPipeline 50
        (fun p => if strStarts p "Classify" then
            .ok "\x7b\"is_valid\": true, \"confidence\": 0.9, \"reason\": \"r\"\x7d"
          else .err "down")
        (initial_state "i" "k@x.io" "Website" "B") = .ok sf ∧
      sf.get? "proposal_text" = some (.str t) ∧ t ≠ "" := by
  obtain ⟨-, ⟨sf, hrun, hpt⟩, hfb⟩ :=
    C1_proposal_nonempty 50
      (fun p => if strStarts p "Classify" then
          .ok "\x7b\"is_valid\": true, \"confidence\": 0.9, \"reason\": \"r\"\x7d"
        else .err "down")
      "i" "k@x.io" "Website" "B" _ _ _ _ _ rfl rfl rfl rfl rfl rfl
  obtain ⟨t, hpt5, htne⟩ := hfb rfl
  refine ⟨sf, t, hrun, ?_, htne⟩
  rw [hpt, hpt5]

set_option maxRecDepth 8192 in
/-- Counterexample to C1 as stated: a run whose proposal call succeeds
with the empty completion completes — classification set
`is_valid_inquiry` true and the run reaches `notified` — yet
`proposal_text` is the empty string. -/
theorem C1_counterexample :
    (runPipeline 50
        (fun p => if strStarts p "Classify" then
            .ok "\x7b\"is_valid\": true, \"confidence\": 0.9, \"reason\": \"r\"\x7d"
          else if strStarts p "Write a professional" then .ok ""
          else .err "down")
        (initial_state "i" "k@x.io" "Website" "B")).map
      (fun d => (d.get? "is_valid_inquiry", d.get? "proposal_text",
        d.get? "current_step")) =
      .ok (some (.bool true), some (.str ""), some (.str "notified")) := rfl
